import Mathlib

set_option maxRecDepth 100000

/-!
Shallow embedding of the EVM bytecode interpreter of this repository
(the jump-table interpreter with a storage plane, `src/unnamed/part_001`,
together with the storage helpers of `src/unnamed/part_006`).

Machine words (the 32-byte big-endian stack values) are lists of byte
values (`Nat`, each `< 256` for well-formed states).  The shared control
block `MessageFrameMemory` is a record; the stack plane is the list of
live words with the head at the top of the stack, the memory plane is a
list of bytes, the code plane a list of bytes, and the storage plane a
list of `StorageEntry`.  `stack_size`, `memory_size`, `code_size` and
`storage_slot_count` are the lengths of those lists.  Unsigned machine
arithmetic is `Nat` with explicit `% 2^w` where the source truncates.
-/

/-- One 32-byte big-endian stack word, as its list of byte values. -/
abbrev Word := List Nat

/-- `word_to_u64` of `src/unnamed/part_001` (lines 55-61): interpret the
last 8 bytes of a 32-byte word as a big-endian unsigned 64-bit integer. -/
def word_to_u64 (w : Word) : Nat :=
  (w.drop 24).foldl (fun r b => r * 256 + b) 0

/-- The 8 big-endian bytes written by `u64_to_word`
(indices 24..31 of the word, written from a 64-bit value). -/
def beBytes8 (v : Nat) : List Nat :=
  [v / 72057594037927936 % 256, v / 281474976710656 % 256,
   v / 1099511627776 % 256, v / 4294967296 % 256,
   v / 16777216 % 256, v / 65536 % 256, v / 256 % 256, v % 256]

/-- `u64_to_word` of `src/unnamed/part_001` (lines 63-69): zero the first
24 bytes, write the value big-endian into the last 8.  The C parameter is
`uint64_t`, so only `v % 2^64` is observable; the byte extractions below
agree with that truncation for every `Nat`. -/
def u64_to_word (v : Nat) : Word :=
  List.replicate 24 0 ++ beBytes8 v

/-- `is_zero` of `src/unnamed/part_001` (lines 71-76). -/
def is_zero (w : Word) : Bool :=
  w.all (fun b => b = 0)

/-- `StorageEntry` of `src/unnamed/part_006`: one 124-byte storage-plane
entry (padding omitted: it is never read). -/
structure StorageEntry where
  address : List Nat
  key : List Nat
  value : List Nat
  original : List Nat
  is_warm : Nat
deriving DecidableEq, Repr

/-- `storage::find` of `src/unnamed/part_006`: linear scan for the first
entry matching `(address, key)` (20-byte and 32-byte `memcmp`). -/
def storage_find (entries : List StorageEntry) (addr : List Nat) (key : List Nat) :
    Option StorageEntry :=
  match entries with
  | [] => none
  | e :: rest =>
    if e.address = addr ∧ e.key = key then some e
    else storage_find rest addr key

/-- In-place mutation through the pointer returned by `storage::find`:
apply `f` to the first entry matching `(address, key)`. -/
def store_update (entries : List StorageEntry) (addr : List Nat) (key : List Nat)
    (f : StorageEntry → StorageEntry) : List StorageEntry :=
  match entries with
  | [] => []
  | e :: rest =>
    if e.address = addr ∧ e.key = key then f e :: rest
    else e :: store_update rest addr key f

/-- The shared control block (`MessageFrameMemory`) together with the
stack, memory, code and storage planes it points to.  The stack list has
its head at the top of the stack; popped slots are dropped (the source
never reads a freed slot). -/
structure MessageFrameMemory where
  pc : Nat
  gas_remaining : Int
  gas_refund : Int
  state : Nat
  is_static : Nat
  halt_reason : Nat
  stack : List Word
  memory : List Nat
  code : List Nat
  contract : List Nat
  storage : List StorageEntry
  max_storage_slots : Nat
deriving DecidableEq, Repr

/-- `stack_size` field of the control block (the live stack depth). -/
def stack_size (s : MessageFrameMemory) : Nat := s.stack.length

/-- `memory_size` field of the control block (current memory bytes). -/
def memory_size (s : MessageFrameMemory) : Nat := s.memory.length

/-- `code_size` field of the control block. -/
def code_size (s : MessageFrameMemory) : Nat := s.code.length

/-- `storage_slot_count` field of the control block. -/
def storage_slot_count (s : MessageFrameMemory) : Nat := s.storage.length

/-- `OpResult` of `src/unnamed/part_001` (lines 22-25). -/
structure OpResult where
  pc_increment : Int
  gas_cost : Int
deriving DecidableEq, Repr

/-- `ensure_memory` of `src/unnamed/part_001` (lines 79-91): grow the
memory plane to a 32-byte multiple covering `[offset, offset+size)`,
zero-filling the new bytes; `none` when the 1 MiB ceiling would be
exceeded (the C function returning `false`).  The source assigns the
64-bit round-up to a `uint32_t` local (`uint32_t new_size =
((required + 31) / 32) * 32;`), so the rounded size is truncated modulo
`2^32`: for `offset + size > 2^32 - 32` the truncated value wraps to 0
or 32, passes the ceiling check, and the function succeeds. -/
def ensure_memory (s : MessageFrameMemory) (offset size : Nat) :
    Option MessageFrameMemory :=
  if size = 0 then some s
  else
    let required := offset + size
    if required > s.memory.length then
      let new_size := (required + 31) / 32 * 32 % 4294967296
      if new_size > 1048576 then none
      else if new_size > s.memory.length then
        some { s with memory := s.memory ++ List.replicate (new_size - s.memory.length) 0 }
      else some s
    else some s

/-- `memcpy` into the memory plane at byte offset `off`.  The plane list
models only the region `[0, memory_size)` the frame owns; bytes the
source writes past it (possible in `ensure_memory`'s `uint32_t`
truncation window, where the write lands outside the plane) fall outside
the modeled state, so the write is clipped to the plane. -/
def memWrite (mem : List Nat) (off : Nat) (bytes : List Nat) : List Nat :=
  mem.take off ++ bytes.take (mem.length - off) ++ mem.drop (off + bytes.length)

/-- `op_stop` (line 95). -/
def op_stop (s : MessageFrameMemory) : MessageFrameMemory × OpResult :=
  ({ s with state := 7 }, ⟨0, 0⟩)

/-- `op_add` (line 100): 64-bit low-limb addition, result written to the
top-1 slot, top popped. -/
def op_add (s : MessageFrameMemory) : MessageFrameMemory × OpResult :=
  match s.stack with
  | a :: b :: rest =>
    ({ s with stack := u64_to_word (word_to_u64 a + word_to_u64 b) :: rest }, ⟨1, 3⟩)
  | _ => (s, ⟨-1, 0⟩)

/-- `op_mul` (line 115). -/
def op_mul (s : MessageFrameMemory) : MessageFrameMemory × OpResult :=
  match s.stack with
  | a :: b :: rest =>
    ({ s with stack := u64_to_word (word_to_u64 a * word_to_u64 b) :: rest }, ⟨1, 5⟩)
  | _ => (s, ⟨-1, 0⟩)

/-- `op_sub` (line 126): `uint64_t` subtraction wraps modulo `2^64`. -/
def op_sub (s : MessageFrameMemory) : MessageFrameMemory × OpResult :=
  match s.stack with
  | a :: b :: rest =>
    ({ s with stack :=
        u64_to_word (word_to_u64 a % 18446744073709551616 + 18446744073709551616
          - word_to_u64 b % 18446744073709551616) :: rest }, ⟨1, 3⟩)
  | _ => (s, ⟨-1, 0⟩)

/-- `op_div` (line 137): division by zero yields zero. -/
def op_div (s : MessageFrameMemory) : MessageFrameMemory × OpResult :=
  match s.stack with
  | a :: b :: rest =>
    ({ s with stack :=
        u64_to_word (if word_to_u64 b = 0 then 0 else word_to_u64 a / word_to_u64 b)
          :: rest }, ⟨1, 5⟩)
  | _ => (s, ⟨-1, 0⟩)

/-- `op_mod` (line 150): modulus by zero yields zero. -/
def op_mod (s : MessageFrameMemory) : MessageFrameMemory × OpResult :=
  match s.stack with
  | a :: b :: rest =>
    ({ s with stack :=
        u64_to_word (if word_to_u64 b = 0 then 0 else word_to_u64 a % word_to_u64 b)
          :: rest }, ⟨1, 5⟩)
  | _ => (s, ⟨-1, 0⟩)

/-- `op_lt` (line 163). -/
def op_lt (s : MessageFrameMemory) : MessageFrameMemory × OpResult :=
  match s.stack with
  | a :: b :: rest =>
    ({ s with stack :=
        u64_to_word (if word_to_u64 a < word_to_u64 b then 1 else 0) :: rest }, ⟨1, 3⟩)
  | _ => (s, ⟨-1, 0⟩)

/-- `op_gt` (line 174). -/
def op_gt (s : MessageFrameMemory) : MessageFrameMemory × OpResult :=
  match s.stack with
  | a :: b :: rest =>
    ({ s with stack :=
        u64_to_word (if word_to_u64 b < word_to_u64 a then 1 else 0) :: rest }, ⟨1, 3⟩)
  | _ => (s, ⟨-1, 0⟩)

/-- `op_eq` (line 185): 32-byte `memcmp` equality. -/
def op_eq (s : MessageFrameMemory) : MessageFrameMemory × OpResult :=
  match s.stack with
  | a :: b :: rest =>
    ({ s with stack := u64_to_word (if a = b then 1 else 0) :: rest }, ⟨1, 3⟩)
  | _ => (s, ⟨-1, 0⟩)

/-- `op_iszero` (line 196): replaces the top in place. -/
def op_iszero (s : MessageFrameMemory) : MessageFrameMemory × OpResult :=
  match s.stack with
  | a :: rest =>
    ({ s with stack := u64_to_word (if is_zero a then 1 else 0) :: rest }, ⟨1, 3⟩)
  | _ => (s, ⟨-1, 0⟩)

/-- `op_and` (line 205): byte-wise AND into the top-1 slot, top popped. -/
def op_and (s : MessageFrameMemory) : MessageFrameMemory × OpResult :=
  match s.stack with
  | a :: b :: rest =>
    ({ s with stack := (List.zipWith (fun bi ai => Nat.land bi ai) b a) :: rest }, ⟨1, 3⟩)
  | _ => (s, ⟨-1, 0⟩)

/-- `op_or` (line 218). -/
def op_or (s : MessageFrameMemory) : MessageFrameMemory × OpResult :=
  match s.stack with
  | a :: b :: rest =>
    ({ s with stack := (List.zipWith (fun bi ai => Nat.lor bi ai) b a) :: rest }, ⟨1, 3⟩)
  | _ => (s, ⟨-1, 0⟩)

/-- `op_xor` (line 231). -/
def op_xor (s : MessageFrameMemory) : MessageFrameMemory × OpResult :=
  match s.stack with
  | a :: b :: rest =>
    ({ s with stack := (List.zipWith (fun bi ai => Nat.xor bi ai) b a) :: rest }, ⟨1, 3⟩)
  | _ => (s, ⟨-1, 0⟩)

/-- `op_not` (line 244): byte-wise complement of the top, in place. -/
def op_not (s : MessageFrameMemory) : MessageFrameMemory × OpResult :=
  match s.stack with
  | a :: rest =>
    ({ s with stack := (a.map (fun b => 255 - b % 256)) :: rest }, ⟨1, 3⟩)
  | _ => (s, ⟨-1, 0⟩)

/-- `op_pop` (line 255). -/
def op_pop (s : MessageFrameMemory) : MessageFrameMemory × OpResult :=
  match s.stack with
  | _ :: rest => ({ s with stack := rest }, ⟨1, 2⟩)
  | _ => (s, ⟨-1, 0⟩)

/-- `op_mload` (line 260): the offset is truncated to `uint32_t`; memory
is grown to cover 32 bytes and the 32-byte `memcpy` at the offset
replaces the top.  Bytes past the modeled plane (reachable only through
`ensure_memory`'s `uint32_t` truncation window, where the source reads
unowned memory) are modeled as zero. -/
def op_mload (s : MessageFrameMemory) : MessageFrameMemory × OpResult :=
  match s.stack with
  | offset_word :: rest =>
    let offset := word_to_u64 offset_word % 4294967296
    match ensure_memory s offset 32 with
    | none => (s, ⟨-1, 0⟩)
    | some s1 =>
      ({ s1 with stack :=
          ((List.range 32).map (fun i => s1.memory.getD (offset + i) 0)) :: rest }, ⟨1, 3⟩)
  | _ => (s, ⟨-1, 0⟩)

/-- `op_mstore` (line 273): pops offset then value, writes 32 bytes. -/
def op_mstore (s : MessageFrameMemory) : MessageFrameMemory × OpResult :=
  match s.stack with
  | offset_word :: value :: rest =>
    let offset := word_to_u64 offset_word % 4294967296
    match ensure_memory s offset 32 with
    | none => (s, ⟨-1, 0⟩)
    | some s1 =>
      ({ s1 with memory := memWrite s1.memory offset value, stack := rest }, ⟨1, 3⟩)
  | _ => (s, ⟨-1, 0⟩)

/-- `op_mstore8` (line 287): writes the low byte (index 31) of the value. -/
def op_mstore8 (s : MessageFrameMemory) : MessageFrameMemory × OpResult :=
  match s.stack with
  | offset_word :: value_word :: rest =>
    let offset := word_to_u64 offset_word % 4294967296
    match ensure_memory s offset 1 with
    | none => (s, ⟨-1, 0⟩)
    | some s1 =>
      ({ s1 with memory := memWrite s1.memory offset [value_word.getD 31 0],
                 stack := rest }, ⟨1, 3⟩)
  | _ => (s, ⟨-1, 0⟩)

/-- `op_sload` (line 301): look up `(contract, key)`; on a hit copy the
value to the stack top, charge 100 (warm) or 2100 (cold) and mark the
entry warm; on a miss push zero and charge 2100. -/
def op_sload (s : MessageFrameMemory) : MessageFrameMemory × OpResult :=
  match s.stack with
  | key_word :: rest =>
    match storage_find s.storage s.contract key_word with
    | some entry =>
      ({ s with stack := entry.value :: rest,
                storage := store_update s.storage s.contract key_word
                  (fun e => { e with is_warm := 1 }) },
       ⟨1, if entry.is_warm ≠ 0 then 100 else 2100⟩)
    | none =>
      ({ s with stack := List.replicate 32 0 :: rest }, ⟨1, 2100⟩)
  | _ => (s, ⟨-1, 0⟩)

/-- `op_sstore` (line 329): static frames halt `ILLEGAL_STATE_CHANGE`;
present entries are repriced per EIP-2200 and overwritten; absent entries
are appended (halting `INVALID_OPERATION` when the plane is full). -/
def op_sstore (s : MessageFrameMemory) : MessageFrameMemory × OpResult :=
  if s.is_static ≠ 0 then
    ({ s with state := 4, halt_reason := 6 }, ⟨-1, 0⟩)
  else
    match s.stack with
    | key_word :: value_word :: rest =>
      match storage_find s.storage s.contract key_word with
      | some entry =>
        let is_zero_value := is_zero value_word
        let was_zero_original := is_zero entry.original
        let was_zero_current := is_zero entry.value
        let is_warm := entry.is_warm ≠ 0
        let gas_cost : Int :=
          if is_zero_value then (if is_warm then 100 else 2100)
          else if was_zero_current ∧ ¬ was_zero_original then
            (if is_warm then 100 else 2100)
          else if was_zero_current then 20000
          else (if is_warm then 100 else 2100)
        ({ s with
            gas_refund :=
              if is_zero_value ∧ ¬ was_zero_current then s.gas_refund + 4800
              else s.gas_refund,
            storage := store_update s.storage s.contract key_word
              (fun e => { e with value := value_word, is_warm := 1 }),
            stack := rest }, ⟨1, gas_cost⟩)
      | none =>
        if s.storage.length ≥ s.max_storage_slots then
          ({ s with state := 4, halt_reason := 2 }, ⟨-1, 0⟩)
        else
          ({ s with
              storage := s.storage ++
                [{ address := s.contract, key := key_word,
                   value := value_word, original := value_word, is_warm := 1 }],
              stack := rest }, ⟨1, 20000⟩)
    | _ => (s, ⟨-1, 0⟩)

/-- `op_jump` (line 417): the destination must be in bounds and a
`JUMPDEST` (0x5b) byte, else `INVALID_JUMP_DESTINATION`. -/
def op_jump (s : MessageFrameMemory) : MessageFrameMemory × OpResult :=
  match s.stack with
  | dest_word :: rest =>
    let dest := word_to_u64 dest_word % 4294967296
    if dest ≥ s.code.length ∨ s.code.getD dest 0 ≠ 91 then
      ({ s with state := 4, halt_reason := 3 }, ⟨-1, 0⟩)
    else
      ({ s with stack := rest, pc := dest }, ⟨0, 8⟩)
  | _ => (s, ⟨-1, 0⟩)

/-- `op_jumpi` (line 433): pops destination and condition before the
validity check. -/
def op_jumpi (s : MessageFrameMemory) : MessageFrameMemory × OpResult :=
  match s.stack with
  | dest_word :: cond_word :: rest =>
    let should_jump := ¬ is_zero cond_word
    let dest := word_to_u64 dest_word % 4294967296
    if should_jump then
      if dest ≥ s.code.length ∨ s.code.getD dest 0 ≠ 91 then
        ({ s with stack := rest, state := 4, halt_reason := 3 }, ⟨-1, 0⟩)
      else
        ({ s with stack := rest, pc := dest }, ⟨0, 10⟩)
    else
      ({ s with stack := rest }, ⟨1, 10⟩)
  | _ => (s, ⟨-1, 0⟩)

/-- `op_pc` (line 456). -/
def op_pc (s : MessageFrameMemory) : MessageFrameMemory × OpResult :=
  if s.stack.length ≥ 1024 then (s, ⟨-1, 0⟩)
  else ({ s with stack := u64_to_word s.pc :: s.stack }, ⟨1, 2⟩)

/-- `op_gas` (line 464): pushes `gas_remaining` (converted to `uint64_t`). -/
def op_gas (s : MessageFrameMemory) : MessageFrameMemory × OpResult :=
  if s.stack.length ≥ 1024 then (s, ⟨-1, 0⟩)
  else
    ({ s with stack := u64_to_word ((s.gas_remaining % 18446744073709551616).toNat) :: s.stack },
     ⟨1, 2⟩)

/-- `op_jumpdest` (line 472). -/
def op_jumpdest (s : MessageFrameMemory) : MessageFrameMemory × OpResult :=
  (s, ⟨1, 1⟩)

/-- `op_push0` (line 476). -/
def op_push0 (s : MessageFrameMemory) : MessageFrameMemory × OpResult :=
  if s.stack.length ≥ 1024 then (s, ⟨-1, 0⟩)
  else ({ s with stack := List.replicate 32 0 :: s.stack }, ⟨1, 2⟩)

/-- `op_push_n` (line 484): pushes `n` code bytes after the opcode,
right-aligned and zero-padded when the code plane runs out. -/
def op_push_n (s : MessageFrameMemory) (n : Nat) : MessageFrameMemory × OpResult :=
  if s.stack.length ≥ 1024 then (s, ⟨-1, 0⟩)
  else
    let bytes_to_copy := min n (s.code.length - s.pc - 1)
    let item := List.replicate (32 - bytes_to_copy) 0 ++
      (s.code.drop (s.pc + 1)).take bytes_to_copy
    ({ s with stack := item :: s.stack }, ⟨1 + n, 3⟩)

/-- `op_dup_n` (line 502): the source is read before the push slot is
allocated. -/
def op_dup_n (s : MessageFrameMemory) (n : Nat) : MessageFrameMemory × OpResult :=
  if s.stack.length ≤ n - 1 then (s, ⟨-1, 0⟩)
  else if s.stack.length ≥ 1024 then (s, ⟨-1, 0⟩)
  else ({ s with stack := s.stack.getD (n - 1) [] :: s.stack }, ⟨1, 3⟩)

/-- `op_swap_n` (line 513): swaps the top with the word `n` below it. -/
def op_swap_n (s : MessageFrameMemory) (n : Nat) : MessageFrameMemory × OpResult :=
  if s.stack.length ≤ n then (s, ⟨-1, 0⟩)
  else
    ({ s with stack :=
        (s.stack.set 0 (s.stack.getD n [])).set n (s.stack.getD 0 []) }, ⟨1, 3⟩)

/-- `op_stub` (line 526): development no-op at base cost. -/
def op_stub (s : MessageFrameMemory) : MessageFrameMemory × OpResult :=
  (s, ⟨1, 3⟩)

/-- `op_invalid` (line 530). -/
def op_invalid (s : MessageFrameMemory) : MessageFrameMemory × OpResult :=
  ({ s with state := 4, halt_reason := 2 }, ⟨-1, 0⟩)

/-- `JUMP_TABLE` of `src/unnamed/part_001` (lines 562-595), as a function
of the opcode byte.  Note the placement of `op_sload`/`op_sstore` at
indices 0x44/0x45 in the source table (the row for 0x40-0x47); bytes
0x54/0x55 dispatch `op_stub`. -/
def JUMP_TABLE (op : Nat) (s : MessageFrameMemory) : MessageFrameMemory × OpResult :=
  if 96 ≤ op ∧ op ≤ 127 then op_push_n s (op - 95)
  else if 128 ≤ op ∧ op ≤ 143 then op_dup_n s (op - 127)
  else if 144 ≤ op ∧ op ≤ 159 then op_swap_n s (op - 143)
  else if op = 0 then op_stop s
  else if op = 1 then op_add s
  else if op = 2 then op_mul s
  else if op = 3 then op_sub s
  else if op = 4 then op_div s
  else if op = 6 then op_mod s
  else if op = 16 then op_lt s
  else if op = 17 then op_gt s
  else if op = 20 then op_eq s
  else if op = 21 then op_iszero s
  else if op = 22 then op_and s
  else if op = 23 then op_or s
  else if op = 24 then op_xor s
  else if op = 25 then op_not s
  else if op = 68 then op_sload s
  else if op = 69 then op_sstore s
  else if op = 80 then op_pop s
  else if op = 81 then op_mload s
  else if op = 82 then op_mstore s
  else if op = 83 then op_mstore8 s
  else if op = 86 then op_jump s
  else if op = 87 then op_jumpi s
  else if op = 88 then op_pc s
  else if op = 90 then op_gas s
  else if op = 91 then op_jumpdest s
  else if op = 95 then op_push0 s
  else if op = 253 ∨ op = 254 ∨ op = 255 then op_invalid s
  else op_stub s

/-- Instrumentation of one `execute_message` run: counts of tracer
pre/post upcalls (made only when a tracer is attached), of dispatched
opcodes, of dispatched opcodes whose handler did not signal an error, and
of opcodes whose gas charge succeeded; `obs` collects the frames passed
to the tracer callbacks, in order. -/
structure RunStats where
  pre : Nat
  post : Nat
  dispatched : Nat
  okDispatched : Nat
  charged : Nat
  obs : List MessageFrameMemory
deriving DecidableEq, Repr

/-- The all-zero instrumentation state. -/
def initStats : RunStats := ⟨0, 0, 0, 0, 0, []⟩

/-- The dispatch loop of `execute_message` (`src/unnamed/part_001`,
lines 615-657), with fuel: `none` means the fuel ran out (never happens
for sufficient fuel, proved below).  `tr` is whether a tracer with a
`trace_pre_execution` pointer is attached. -/
def execLoop (tr : Bool) : Nat → MessageFrameMemory → RunStats →
    Option (MessageFrameMemory × RunStats)
  | 0, _, _ => none
  | fuel + 1, s, st =>
    if s.pc < s.code.length ∧ s.state = 1 then
      if s.gas_remaining < 3 then
        some ({ s with state := 4, halt_reason := 1 }, st)
      else
        let opcode := s.code.getD s.pc 0
        let st1 := if tr then { st with pre := st.pre + 1, obs := st.obs ++ [s] } else st
        let res := JUMP_TABLE opcode s
        let st2 := { st1 with dispatched := st1.dispatched + 1 }
        if res.2.pc_increment < 0 then
          if res.1.state = 1 then
            some ({ res.1 with state := 4, halt_reason := 4 }, st2)
          else
            some (res.1, st2)
        else
          let st3 := { st2 with okDispatched := st2.okDispatched + 1 }
          if res.1.gas_remaining < res.2.gas_cost then
            some ({ res.1 with state := 4, halt_reason := 1 }, st3)
          else
            let s2 := { res.1 with gas_remaining := res.1.gas_remaining - res.2.gas_cost }
            let st4 := { st3 with charged := st3.charged + 1 }
            let st5 := if tr then { st4 with post := st4.post + 1, obs := st4.obs ++ [s2] }
                       else st4
            let s3 := if res.2.pc_increment > 0 then
                        { s2 with pc := s2.pc + res.2.pc_increment.toNat }
                      else s2
            execLoop tr fuel s3 st5
    else
      some (if s.state = 1 then { s with state := 7 } else s, st)

/-- `execute_message` (`src/unnamed/part_001`, lines 599-662): set the
state to `CODE_EXECUTING` and run the dispatch loop.  The fuel
`gas_remaining.toNat + 2` always suffices (proved below), so the
`Option.getD` fallback is dead code. -/
def execute_message (s : MessageFrameMemory) (tr : Bool) :
    MessageFrameMemory × RunStats :=
  (execLoop tr (s.gas_remaining.toNat + 2) { s with state := 1 } initStats).getD
    ({ s with state := 1 }, initStats)

/-- A host-populated control block as in the spec's end-to-end scenarios:
`pc = 0`, empty stack and memory, empty storage plane, zero contract
address, `max_storage_slots = 100`. -/
def baseFrame (codeL : List Nat) (gas : Int) : MessageFrameMemory :=
  { pc := 0, gas_remaining := gas, gas_refund := 0, state := 0, is_static := 0,
    halt_reason := 0, stack := [], memory := [], code := codeL,
    contract := List.replicate 20 0, storage := [], max_storage_slots := 100 }

/-- The spec's storage round-trip program, bytes as written:
PUSH1 0x2A; PUSH1 0x07; SSTORE (0x55); PUSH1 0x07; SLOAD (0x54); STOP,
with empty storage plane, gas 50000, non-static. -/
def storageRoundTripFrame : MessageFrameMemory :=
  baseFrame [96, 42, 96, 7, 85, 96, 7, 84, 0] 50000

/-- A static frame whose code is the single byte 0x55 (SSTORE), with two
stack operands ready. -/
def staticSstoreFrame : MessageFrameMemory :=
  { baseFrame [85] 100 with
      is_static := 1
      stack := [u64_to_word 7, u64_to_word 42] }

/-- A frame with a full (1024-entry) stack about to execute PUSH0. -/
def fullStackFrame : MessageFrameMemory :=
  { baseFrame [95] 100 with stack := List.replicate 1024 (List.replicate 32 0) }

/-- PUSH1 0x2A; PUSH4 0x00100000; MSTORE - the store offset 2^20 forces
memory past the 1 MiB ceiling. -/
def memCeilingFrame : MessageFrameMemory :=
  baseFrame [96, 42, 99, 0, 16, 0, 0, 82] 1000

/-- PUSH1 0x2A; PUSH4 0xFFFFFFE0; MSTORE; STOP - the store offset
2^32 - 32 makes the required size 2^32, whose 32-byte round-up the
source truncates to a `uint32_t` of 0, defeating the 1 MiB ceiling
check. -/
def memWrapFrame : MessageFrameMemory :=
  baseFrame [96, 42, 99, 255, 255, 255, 224, 82, 0] 1000

/-- JUMPDEST; PUSH1 0; JUMP - a program that jumps in a cycle forever. -/
def cyclicJumpFrame : MessageFrameMemory :=
  baseFrame [91, 96, 0, 86] 100

/-- The INVALID opcode alone, executed with a tracer attached. -/
def invalidOpFrame : MessageFrameMemory :=
  baseFrame [254] 10

/-- MUL with two operands but only 3 gas: the opcode passes the 3-gas
floor, dispatches successfully, and then fails the per-opcode charge. -/
def mulOutOfGasFrame : MessageFrameMemory :=
  { baseFrame [2] 3 with stack := [u64_to_word 2, u64_to_word 5] }

/-- The instrumentation state after the pre-trace upcall and the
dispatch counter of one loop iteration (the state at the loop's
handler-error exit). -/
def statsAfterDispatch (tr : Bool) (st : RunStats) (s : MessageFrameMemory) : RunStats :=
  let st1 := if tr then { st with pre := st.pre + 1, obs := st.obs ++ [s] } else st
  { st1 with dispatched := st1.dispatched + 1 }

/-- The layout preconditions of the shared region, maintained as an
invariant: the stack holds at most 1024 words, `memory_size` is a
multiple of 32, every live stack slot is a full 32-byte word, and every
storage entry's value field is a full 32-byte word. -/
def FrameInv (s : MessageFrameMemory) : Prop :=
  stack_size s ≤ 1024 ∧
  memory_size s % 32 = 0 ∧
  (∀ w ∈ s.stack, w.length = 32) ∧
  (∀ e ∈ s.storage, e.value.length = 32)

/-- The exact failure condition of the source's `ensure_memory` (for
`size ≠ 0`): the region is not yet covered, and the 32-byte round-up of
`offset + size` - after the source's `uint32_t` truncation - exceeds
1048576.  In the truncation window (`offset + size > 2^32 - 32`) the
rounded size wraps to 0 or 32, this condition is false, and the source
proceeds without halting. -/
def memGrowthExceedsLimit (s : MessageFrameMemory) (offset size : Nat) : Prop :=
  offset + size > s.memory.length ∧
  (offset + size + 31) / 32 * 32 % 4294967296 > 1048576

/-- The opcodes whose handlers allocate a new stack slot
(PC, GAS, PUSH0, PUSH1..PUSH32, DUP1..DUP16). -/
def attemptsPush (op : Nat) : Prop :=
  op = 88 ∨ op = 90 ∨ op = 95 ∨ (96 ≤ op ∧ op ≤ 127) ∨ (128 ≤ op ∧ op ≤ 143)

/-- C2.  Running `execute_message` on the code 0x60 0x05 0x60 0x03 0x01
0x00 (PUSH1 5, PUSH1 3, ADD, STOP) with pc = 0, empty stack and
gas_remaining = 1000000 terminates with state = COMPLETED_SUCCESS (7),
stack_size = 1, top-of-stack word the 32-byte big-endian representation
of 8, gas_remaining = 999991, and pc = 5. -/
theorem C2_simple_add :
    (execute_message (baseFrame [96, 5, 96, 3, 1, 0] 1000000) false).1.state = 7 ∧
    stack_size (execute_message (baseFrame [96, 5, 96, 3, 1, 0] 1000000) false).1 = 1 ∧
    (execute_message (baseFrame [96, 5, 96, 3, 1, 0] 1000000) false).1.stack.headD []
      = u64_to_word 8 ∧
    word_to_u64
      ((execute_message (baseFrame [96, 5, 96, 3, 1, 0] 1000000) false).1.stack.headD [])
      = 8 ∧
    (execute_message (baseFrame [96, 5, 96, 3, 1, 0] 1000000) false).1.gas_remaining
      = 999991 ∧
    (execute_message (baseFrame [96, 5, 96, 3, 1, 0] 1000000) false).1.pc = 5 :=
  ⟨rfl, rfl, rfl, rfl, rfl, rfl⟩

/-- C4.  Evaluating `execute_message` on the spec's storage round-trip
program as written (SSTORE = byte 0x55, SLOAD = byte 0x54): the run
completes successfully but creates no storage entry, leaves three words
on the stack with top 7, and leaves gas_remaining = 49985 - because the
source jump table wires `op_sload`/`op_sstore` at indices 0x44/0x45 and
dispatches bytes 0x54/0x55 to the development stub. -/
theorem C4_storage_round_trip_bug :
    (execute_message storageRoundTripFrame false).1.state = 7 ∧
    storage_slot_count (execute_message storageRoundTripFrame false).1 = 0 ∧
    stack_size (execute_message storageRoundTripFrame false).1 = 3 ∧
    word_to_u64 ((execute_message storageRoundTripFrame false).1.stack.headD []) = 7 ∧
    (execute_message storageRoundTripFrame false).1.gas_remaining = 49985 :=
  ⟨rfl, rfl, rfl, rfl, rfl⟩

/-- C5.  Evaluating `execute_message` on a static frame whose code is the
single SSTORE byte 0x55: the frame completes with state =
COMPLETED_SUCCESS (7) and halt_reason = 0 instead of halting with
EXCEPTIONAL_HALT / ILLEGAL_STATE_CHANGE, because the source jump table
dispatches byte 0x55 to the development stub (`op_sstore` sits at index
0x45). -/
theorem C5_static_sstore_bug :
    (execute_message staticSstoreFrame false).1.state = 7 ∧
    (execute_message staticSstoreFrame false).1.halt_reason = 0 ∧
    (execute_message staticSstoreFrame false).1.storage = [] ∧
    (execute_message staticSstoreFrame false).1.gas_remaining = 97 :=
  ⟨rfl, rfl, rfl, rfl⟩

/-- C6 counterexample.  Two concrete runs refute the claim.  First,
PUSH1 0x2A; PUSH4 0x00100000; MSTORE (memory required past the 1 MiB
ceiling) halts with state = EXCEPTIONAL_HALT (4) but halt_reason = 4
(the dispatch loop's generic handler-error code), not OUT_OF_BOUNDS
(7).  Second, PUSH1 0x2A; PUSH4 0xFFFFFFE0; MSTORE; STOP requires
memory size 2^32 - far past the ceiling - yet does not halt at all: the
source truncates the rounded size to a `uint32_t` (part_001 line 83),
which wraps to 0, passes the ceiling check, and the run completes with
state = COMPLETED_SUCCESS (7), halt_reason = 0, memory_size still 0 and
gas 991. -/
theorem C6_memory_limit_counterexample :
    ((execute_message memCeilingFrame false).1.state = 4 ∧
     (execute_message memCeilingFrame false).1.halt_reason = 4 ∧
     ¬ (execute_message memCeilingFrame false).1.halt_reason = 7) ∧
    ((execute_message memWrapFrame false).1.state = 7 ∧
     (execute_message memWrapFrame false).1.halt_reason = 0 ∧
     memory_size (execute_message memWrapFrame false).1 = 0 ∧
     (execute_message memWrapFrame false).1.gas_remaining = 991) :=
  ⟨⟨rfl, rfl, by decide⟩, rfl, rfl, rfl, rfl⟩

/-- C7 counterexample.  Evaluating `execute_message` on a frame whose
stack already holds 1024 entries and whose code is PUSH0: the frame
halts with state = EXCEPTIONAL_HALT (4) and halt_reason = 4 (which the
repository's `ExceptionalHaltReason` enum names STACK_OVERFLOW), not 5
as claimed. -/
theorem C7_stack_overflow_counterexample :
    (execute_message fullStackFrame false).1.state = 4 ∧
    (execute_message fullStackFrame false).1.halt_reason = 4 ∧
    ¬ (execute_message fullStackFrame false).1.halt_reason = 5 :=
  ⟨rfl, rfl, by decide⟩

/-- C8 counterexample.  Two concrete traced runs refute the claim that
pre-trace calls = post-trace calls = error-free dispatches: on the
single INVALID opcode the tracer sees 1 pre call but 0 post calls (0
error-free dispatches), and on MUL with gas_remaining = 3 the handler
dispatches without error (1 error-free dispatch) yet the post trace is
never called because the gas charge fails. -/
theorem C8_trace_count_counterexample :
    (execute_message invalidOpFrame true).2.pre = 1 ∧
    (execute_message invalidOpFrame true).2.post = 0 ∧
    (execute_message invalidOpFrame true).2.okDispatched = 0 ∧
    (execute_message mulOutOfGasFrame true).2.pre = 1 ∧
    (execute_message mulOutOfGasFrame true).2.post = 0 ∧
    (execute_message mulOutOfGasFrame true).2.okDispatched = 1 :=
  ⟨rfl, rfl, rfl, rfl, rfl, rfl⟩

theorem u64_to_word_drop24 (v : Nat) : (u64_to_word v).drop 24 = beBytes8 v := by
  simp [u64_to_word]

/-- C10.  `word_to_u64` is a left inverse of `u64_to_word` on 64-bit
values; `u64_to_word` always yields a 32-byte word whose first 24 bytes
are zero; and on 32-byte words with zero first 24 bytes (and byte-range
entries, as `uint8_t` guarantees in the source) `u64_to_word` inverts
`word_to_u64`. -/
theorem C10_u64_word_roundtrip :
    (∀ v : Nat, v < 18446744073709551616 → word_to_u64 (u64_to_word v) = v) ∧
    (∀ v : Nat, (u64_to_word v).length = 32 ∧
      (u64_to_word v).take 24 = List.replicate 24 0) ∧
    (∀ w : Word, w.length = 32 → (∀ b ∈ w, b < 256) →
      w.take 24 = List.replicate 24 0 → u64_to_word (word_to_u64 w) = w) := by
  refine ⟨?_, ?_, ?_⟩
  · intro v h
    rw [word_to_u64, u64_to_word_drop24]
    simp only [beBytes8, List.foldl]
    omega
  · intro v
    constructor
    · simp [u64_to_word, beBytes8]
    · simp [u64_to_word]
  · intro w hlen hbytes hzero
    have hw : w = List.replicate 24 0 ++ w.drop 24 := by
      conv_lhs => rw [← List.take_append_drop 24 w]
      rw [hzero]
    have hdlen : (w.drop 24).length = 8 := by
      rw [List.length_drop, hlen]
    rcases hd : w.drop 24 with _ | ⟨b0, _ | ⟨b1, _ | ⟨b2, _ | ⟨b3, _ | ⟨b4, _ | ⟨b5, _ | ⟨b6, _ | ⟨b7, rest⟩⟩⟩⟩⟩⟩⟩⟩ <;>
      rw [hd] at hdlen <;> simp at hdlen
    have hrest : rest = [] := by
      cases rest
      · rfl
      · simp at hdlen
    subst hrest
    rw [hd] at hw
    have hb : b0 < 256 ∧ b1 < 256 ∧ b2 < 256 ∧ b3 < 256 ∧ b4 < 256 ∧
        b5 < 256 ∧ b6 < 256 ∧ b7 < 256 := by
      refine ⟨?_, ?_, ?_, ?_, ?_, ?_, ?_, ?_⟩ <;>
        exact hbytes _ (by rw [hw]; simp)
    rw [hw, word_to_u64]
    have hdrop : List.drop 24 (List.replicate 24 0 ++ [b0, b1, b2, b3, b4, b5, b6, b7])
        = [b0, b1, b2, b3, b4, b5, b6, b7] := by
      simp
    rw [hdrop, u64_to_word]
    congr 1
    simp only [beBytes8, List.foldl]
    simp only [List.cons.injEq, and_true]
    omega

/-- Witness for C10 at concrete inputs: the value 511 round-trips
through `u64_to_word`, and the 32-byte word `0^24 ++ [1..8]` round-trips
through `word_to_u64`. -/
theorem C10_u64_word_roundtrip_witness :
    word_to_u64 (u64_to_word 511) = 511 ∧
    u64_to_word (word_to_u64 (List.replicate 24 0 ++ [1, 2, 3, 4, 5, 6, 7, 8]))
      = List.replicate 24 0 ++ [1, 2, 3, 4, 5, 6, 7, 8] :=
  ⟨C10_u64_word_roundtrip.1 511 (by decide),
   C10_u64_word_roundtrip.2.2 _ (by decide) (by decide) (by decide)⟩

theorem storage_find_store_update (es : List StorageEntry) (a k : List Nat)
    (f : StorageEntry → StorageEntry)
    (hf : ∀ e : StorageEntry, (f e).address = e.address ∧ (f e).key = e.key) :
    storage_find (store_update es a k f) a k = (storage_find es a k).map f := by
  induction es with
  | nil => simp [storage_find, store_update]
  | cons e rest ih =>
    by_cases h : e.address = a ∧ e.key = k
    · simp [storage_find, store_update, h, (hf e).1, (hf e).2]
    · simp [storage_find, store_update, h, ih]

/-- C3.  For every SSTORE executed in a non-static frame on an
already-present storage entry for `(contract, key)` - letting
W = entry was warm, Z0 = original value is zero, Zc = current value is
zero, Zv = new value is zero - the returned gas cost is 20000 when
(not Zv and Zc and Z0) and otherwise 100 if W else 2100; `gas_refund`
grows by exactly 4800 precisely when (Zv and not Zc); and afterwards the
entry holds the new value with `is_warm = 1`.  (In the source jump table
`op_sstore` is dispatched at index 0x45; byte 0x55 runs the stub - see
C4.) -/
theorem C3_sstore_present_entry (s : MessageFrameMemory) (key_word value_word : Word)
    (rest : List Word) (e : StorageEntry)
    (hstatic : s.is_static = 0)
    (hstack : s.stack = key_word :: value_word :: rest)
    (hfind : storage_find s.storage s.contract key_word = some e) :
    (op_sstore s).2.gas_cost =
      (if is_zero value_word = false ∧ is_zero e.value = true ∧ is_zero e.original = true
       then 20000 else if e.is_warm ≠ 0 then 100 else 2100) ∧
    (op_sstore s).1.gas_refund =
      s.gas_refund + (if is_zero value_word = true ∧ is_zero e.value = false then 4800 else 0) ∧
    storage_find (op_sstore s).1.storage s.contract key_word =
      some { e with value := value_word, is_warm := 1 } ∧
    (op_sstore s).2.pc_increment = 1 := by
  have hupd := storage_find_store_update s.storage s.contract key_word
      (fun x => { x with value := value_word, is_warm := 1 }) (fun x => ⟨rfl, rfl⟩)
  simp only [op_sstore, hstatic, ne_eq, not_true_eq_false, if_false, hstack, hfind]
  refine ⟨?_, ?_, ?_, ?_⟩
  · cases hZv : is_zero value_word <;> cases hZc : is_zero e.value <;>
      cases hZ0 : is_zero e.original <;> simp [hZv, hZc, hZ0]
  · cases hZv : is_zero value_word <;> cases hZc : is_zero e.value <;> simp [hZv, hZc]
  · rw [hupd, hfind]
    rfl
  · trivial

/-- Witness for C3: a warm=0 entry holding 9 (original 9) under key 7,
overwritten with 42 in a non-static frame: cost 2100 (cold, modify
path), no refund, and the entry afterwards holds 42 with `is_warm = 1`. -/
theorem C3_sstore_present_entry_witness :
    (op_sstore { baseFrame [69] 100 with
        stack := [u64_to_word 7, u64_to_word 42]
        storage := [⟨List.replicate 20 0, u64_to_word 7, u64_to_word 9, u64_to_word 9, 0⟩] }).2.gas_cost
      = 2100 ∧
    (op_sstore { baseFrame [69] 100 with
        stack := [u64_to_word 7, u64_to_word 42]
        storage := [⟨List.replicate 20 0, u64_to_word 7, u64_to_word 9, u64_to_word 9, 0⟩] }).1.gas_refund
      = 0 := by
  have h := C3_sstore_present_entry
    { baseFrame [69] 100 with
        stack := [u64_to_word 7, u64_to_word 42]
        storage := [⟨List.replicate 20 0, u64_to_word 7, u64_to_word 9, u64_to_word 9, 0⟩] }
    (u64_to_word 7) (u64_to_word 42) []
    ⟨List.replicate 20 0, u64_to_word 7, u64_to_word 9, u64_to_word 9, 0⟩
    rfl rfl (by decide)
  refine ⟨?_, ?_⟩
  · rw [h.1]
    decide
  · rw [h.2.1]
    decide

theorem u64_to_word_length (v : Nat) : (u64_to_word v).length = 32 := by
  simp [u64_to_word, beBytes8]

theorem storage_find_mem (es : List StorageEntry) (a k : List Nat) (e : StorageEntry)
    (h : storage_find es a k = some e) : e ∈ es := by
  induction es with
  | nil => simp [storage_find] at h
  | cons x rest ih =>
    by_cases hx : x.address = a ∧ x.key = k
    · simp [storage_find, hx] at h
      simp [h]
    · simp [storage_find, hx] at h
      exact List.mem_cons_of_mem _ (ih h)

theorem store_update_mem (es : List StorageEntry) (a k : List Nat)
    (f : StorageEntry → StorageEntry) (x : StorageEntry)
    (h : x ∈ store_update es a k f) : x ∈ es ∨ ∃ e ∈ es, x = f e := by
  induction es with
  | nil => simp [store_update] at h
  | cons e rest ih =>
    by_cases he : e.address = a ∧ e.key = k
    · simp [store_update, he] at h
      rcases h with h | h
      · exact Or.inr ⟨e, by simp, h⟩
      · exact Or.inl (List.mem_cons_of_mem _ h)
    · simp [store_update, he] at h
      rcases h with h | h
      · exact Or.inl (by simp [h])
      · rcases ih h with h1 | ⟨e1, he1, hx⟩
        · exact Or.inl (List.mem_cons_of_mem _ h1)
        · exact Or.inr ⟨e1, List.mem_cons_of_mem _ he1, hx⟩

theorem ensure_memory_some (s : MessageFrameMemory) (off sz : Nat)
    (s1 : MessageFrameMemory) (h : ensure_memory s off sz = some s1) :
    s1.pc = s.pc ∧ s1.gas_remaining = s.gas_remaining ∧ s1.gas_refund = s.gas_refund ∧
    s1.state = s.state ∧ s1.is_static = s.is_static ∧ s1.halt_reason = s.halt_reason ∧
    s1.stack = s.stack ∧ s1.code = s.code ∧ s1.contract = s.contract ∧
    s1.storage = s.storage ∧ s1.max_storage_slots = s.max_storage_slots ∧
    (s.memory.length % 32 = 0 → s1.memory.length % 32 = 0) := by
  simp only [ensure_memory] at h
  split_ifs at h with h1 h2 h3 h4
  · cases h
    exact ⟨rfl, rfl, rfl, rfl, rfl, rfl, rfl, rfl, rfl, rfl, rfl, fun hm => hm⟩
  · cases h
    refine ⟨rfl, rfl, rfl, rfl, rfl, rfl, rfl, rfl, rfl, rfl, rfl, fun hm => ?_⟩
    simp only [List.length_append, List.length_replicate]
    omega
  · cases h
    exact ⟨rfl, rfl, rfl, rfl, rfl, rfl, rfl, rfl, rfl, rfl, rfl, fun hm => hm⟩
  · cases h
    exact ⟨rfl, rfl, rfl, rfl, rfl, rfl, rfl, rfl, rfl, rfl, rfl, fun hm => hm⟩

theorem FrameInv_with_stack (s : MessageFrameMemory) (ns : List Word)
    (h : FrameInv s) (hlen : ns.length ≤ 1024) (hw : ∀ w ∈ ns, w.length = 32) :
    FrameInv { s with stack := ns } := by
  refine ⟨?_, h.2.1, hw, h.2.2.2⟩
  simpa [stack_size] using hlen

theorem FrameInv_build (t : MessageFrameMemory)
    (hlen : t.stack.length ≤ 1024) (hw : ∀ w ∈ t.stack, w.length = 32)
    (hm : t.memory.length % 32 = 0) (hsg : ∀ e ∈ t.storage, e.value.length = 32) :
    FrameInv t :=
  ⟨hlen, hm, hw, hsg⟩

theorem FrameInv.stack_len {s : MessageFrameMemory} (h : FrameInv s) :
    s.stack.length ≤ 1024 := h.1

theorem FrameInv.mem32 {s : MessageFrameMemory} (h : FrameInv s) :
    s.memory.length % 32 = 0 := h.2.1

theorem FrameInv.words {s : MessageFrameMemory} (h : FrameInv s) :
    ∀ w ∈ s.stack, w.length = 32 := h.2.2.1

theorem FrameInv.vals {s : MessageFrameMemory} (h : FrameInv s) :
    ∀ e ∈ s.storage, e.value.length = 32 := h.2.2.2

/-- Handler facts used by the loop proofs: gas_remaining untouched, and
either the handler signals an error, or it charges at least 1 gas, or it
leaves the executing state; and it preserves the layout invariant. -/
def HandlerFacts (H : MessageFrameMemory → MessageFrameMemory × OpResult) : Prop :=
  ∀ s : MessageFrameMemory,
    (H s).1.gas_remaining = s.gas_remaining ∧
    ((H s).2.pc_increment < 0 ∨ 1 ≤ (H s).2.gas_cost ∨ (H s).1.state ≠ 1) ∧
    (FrameInv s → FrameInv (H s).1)

theorem binop_handler_facts (H : MessageFrameMemory → MessageFrameMemory × OpResult)
    (f : Word → Word → Word) (cost : Int)
    (hnil : ∀ s : MessageFrameMemory, s.stack = [] → H s = (s, ⟨-1, 0⟩))
    (hone : ∀ (s : MessageFrameMemory) (a : Word), s.stack = [a] → H s = (s, ⟨-1, 0⟩))
    (hcons : ∀ (s : MessageFrameMemory) (a b : Word) (rest : List Word),
      s.stack = a :: b :: rest →
      H s = ({ s with stack := f a b :: rest }, ⟨1, cost⟩))
    (hf : ∀ a b : Word, a.length = 32 → b.length = 32 → (f a b).length = 32)
    (hcost : 1 ≤ cost) : HandlerFacts H := by
  intro s
  rcases hs : s.stack with _ | ⟨a, _ | ⟨b, rest⟩⟩
  · rw [hnil s hs]; exact ⟨rfl, Or.inl (by norm_num), fun h => h⟩
  · rw [hone s a hs]; exact ⟨rfl, Or.inl (by norm_num), fun h => h⟩
  · rw [hcons s a b rest hs]
    refine ⟨rfl, Or.inr (Or.inl hcost), fun h => FrameInv_build _ ?_ ?_ h.mem32 h.vals⟩
    · have h1 := h.stack_len
      rw [hs] at h1
      simp only [List.length_cons] at h1 ⊢
      omega
    · intro w hw
      rcases List.mem_cons.mp hw with hw1 | hw1
      · rw [hw1]
        exact hf a b (h.words a (by rw [hs]; exact List.mem_cons_self a _))
          (h.words b (by rw [hs]; exact List.mem_cons_of_mem _ (List.mem_cons_self b _)))
      · exact h.words w (by rw [hs]; exact List.mem_cons_of_mem _ (List.mem_cons_of_mem _ hw1))

theorem unop_handler_facts (H : MessageFrameMemory → MessageFrameMemory × OpResult)
    (f : Word → Word) (cost : Int)
    (hnil : ∀ s : MessageFrameMemory, s.stack = [] → H s = (s, ⟨-1, 0⟩))
    (hcons : ∀ (s : MessageFrameMemory) (a : Word) (rest : List Word),
      s.stack = a :: rest →
      H s = ({ s with stack := f a :: rest }, ⟨1, cost⟩))
    (hf : ∀ a : Word, a.length = 32 → (f a).length = 32)
    (hcost : 1 ≤ cost) : HandlerFacts H := by
  intro s
  rcases hs : s.stack with _ | ⟨a, rest⟩
  · rw [hnil s hs]; exact ⟨rfl, Or.inl (by norm_num), fun h => h⟩
  · rw [hcons s a rest hs]
    refine ⟨rfl, Or.inr (Or.inl hcost), fun h => FrameInv_build _ ?_ ?_ h.mem32 h.vals⟩
    · have h1 := h.stack_len
      rw [hs] at h1
      simp only [List.length_cons] at h1 ⊢
      omega
    · intro w hw
      rcases List.mem_cons.mp hw with hw1 | hw1
      · rw [hw1]
        exact hf a (h.words a (by rw [hs]; exact List.mem_cons_self a _))
      · exact h.words w (by rw [hs]; exact List.mem_cons_of_mem _ hw1)

theorem pushop_handler_facts (H : MessageFrameMemory → MessageFrameMemory × OpResult)
    (w : MessageFrameMemory → Word) (inc cost : Int)
    (hH : ∀ s : MessageFrameMemory,
      H s = if s.stack.length ≥ 1024 then (s, ⟨-1, 0⟩)
            else ({ s with stack := w s :: s.stack }, ⟨inc, cost⟩))
    (hw : ∀ s : MessageFrameMemory, (w s).length = 32)
    (hcost : 1 ≤ cost) : HandlerFacts H := by
  intro s
  rw [hH s]
  by_cases hfull : s.stack.length ≥ 1024
  · rw [if_pos hfull]
    exact ⟨rfl, Or.inl (by norm_num), fun h => h⟩
  · rw [if_neg hfull]
    refine ⟨rfl, Or.inr (Or.inl hcost), fun h => FrameInv_build _ ?_ ?_ h.mem32 h.vals⟩
    · simp only [List.length_cons]
      omega
    · intro x hx
      rcases List.mem_cons.mp hx with hx1 | hx1
      · rw [hx1]; exact hw s
      · exact h.words x hx1

theorem op_add_facts : HandlerFacts op_add :=
  binop_handler_facts _ (fun a b => u64_to_word (word_to_u64 a + word_to_u64 b)) 3
    (fun s h => by simp [op_add, h]) (fun s a h => by simp [op_add, h])
    (fun s a b rest h => by simp [op_add, h])
    (fun a b _ _ => u64_to_word_length _) (by norm_num)

theorem op_mul_facts : HandlerFacts op_mul :=
  binop_handler_facts _ (fun a b => u64_to_word (word_to_u64 a * word_to_u64 b)) 5
    (fun s h => by simp [op_mul, h]) (fun s a h => by simp [op_mul, h])
    (fun s a b rest h => by simp [op_mul, h])
    (fun a b _ _ => u64_to_word_length _) (by norm_num)

theorem op_sub_facts : HandlerFacts op_sub :=
  binop_handler_facts _
    (fun a b => u64_to_word (word_to_u64 a % 18446744073709551616 + 18446744073709551616
      - word_to_u64 b % 18446744073709551616)) 3
    (fun s h => by simp [op_sub, h]) (fun s a h => by simp [op_sub, h])
    (fun s a b rest h => by simp [op_sub, h])
    (fun a b _ _ => u64_to_word_length _) (by norm_num)

theorem op_div_facts : HandlerFacts op_div :=
  binop_handler_facts _
    (fun a b => u64_to_word (if word_to_u64 b = 0 then 0 else word_to_u64 a / word_to_u64 b)) 5
    (fun s h => by simp [op_div, h]) (fun s a h => by simp [op_div, h])
    (fun s a b rest h => by simp [op_div, h])
    (fun a b _ _ => u64_to_word_length _) (by norm_num)

theorem op_mod_facts : HandlerFacts op_mod :=
  binop_handler_facts _
    (fun a b => u64_to_word (if word_to_u64 b = 0 then 0 else word_to_u64 a % word_to_u64 b)) 5
    (fun s h => by simp [op_mod, h]) (fun s a h => by simp [op_mod, h])
    (fun s a b rest h => by simp [op_mod, h])
    (fun a b _ _ => u64_to_word_length _) (by norm_num)

theorem op_lt_facts : HandlerFacts op_lt :=
  binop_handler_facts _
    (fun a b => u64_to_word (if word_to_u64 a < word_to_u64 b then 1 else 0)) 3
    (fun s h => by simp [op_lt, h]) (fun s a h => by simp [op_lt, h])
    (fun s a b rest h => by simp [op_lt, h])
    (fun a b _ _ => u64_to_word_length _) (by norm_num)

theorem op_gt_facts : HandlerFacts op_gt :=
  binop_handler_facts _
    (fun a b => u64_to_word (if word_to_u64 b < word_to_u64 a then 1 else 0)) 3
    (fun s h => by simp [op_gt, h]) (fun s a h => by simp [op_gt, h])
    (fun s a b rest h => by simp [op_gt, h])
    (fun a b _ _ => u64_to_word_length _) (by norm_num)

theorem op_eq_facts : HandlerFacts op_eq :=
  binop_handler_facts _
    (fun a b => u64_to_word (if a = b then 1 else 0)) 3
    (fun s h => by simp [op_eq, h]) (fun s a h => by simp [op_eq, h])
    (fun s a b rest h => by simp [op_eq, h])
    (fun a b _ _ => u64_to_word_length _) (by norm_num)

theorem op_and_facts : HandlerFacts op_and :=
  binop_handler_facts _
    (fun a b => List.zipWith (fun bi ai => Nat.land bi ai) b a) 3
    (fun s h => by simp [op_and, h]) (fun s a h => by simp [op_and, h])
    (fun s a b rest h => by simp [op_and, h])
    (fun a b ha hb => by simp [List.length_zipWith, ha, hb]) (by norm_num)

theorem op_or_facts : HandlerFacts op_or :=
  binop_handler_facts _
    (fun a b => List.zipWith (fun bi ai => Nat.lor bi ai) b a) 3
    (fun s h => by simp [op_or, h]) (fun s a h => by simp [op_or, h])
    (fun s a b rest h => by simp [op_or, h])
    (fun a b ha hb => by simp [List.length_zipWith, ha, hb]) (by norm_num)

theorem op_xor_facts : HandlerFacts op_xor :=
  binop_handler_facts _
    (fun a b => List.zipWith (fun bi ai => Nat.xor bi ai) b a) 3
    (fun s h => by simp [op_xor, h]) (fun s a h => by simp [op_xor, h])
    (fun s a b rest h => by simp [op_xor, h])
    (fun a b ha hb => by simp [List.length_zipWith, ha, hb]) (by norm_num)

theorem op_iszero_facts : HandlerFacts op_iszero :=
  unop_handler_facts _
    (fun a => u64_to_word (if is_zero a then 1 else 0)) 3
    (fun s h => by simp [op_iszero, h])
    (fun s a rest h => by simp [op_iszero, h])
    (fun a _ => u64_to_word_length _) (by norm_num)

theorem op_not_facts : HandlerFacts op_not :=
  unop_handler_facts _
    (fun a => a.map (fun b => 255 - b % 256)) 3
    (fun s h => by simp [op_not, h])
    (fun s a rest h => by simp [op_not, h])
    (fun a ha => by simp [ha]) (by norm_num)

theorem op_pc_facts : HandlerFacts op_pc :=
  pushop_handler_facts _ (fun s => u64_to_word s.pc) 1 2
    (fun s => rfl) (fun s => u64_to_word_length _) (by norm_num)

theorem op_gas_facts : HandlerFacts op_gas :=
  pushop_handler_facts _
    (fun s => u64_to_word ((s.gas_remaining % 18446744073709551616).toNat)) 1 2
    (fun s => rfl) (fun s => u64_to_word_length _) (by norm_num)

theorem op_push0_facts : HandlerFacts op_push0 :=
  pushop_handler_facts _ (fun _ => List.replicate 32 0) 1 2
    (fun s => rfl) (fun s => by simp) (by norm_num)

theorem op_push_n_facts (n : Nat) (hn : n ≤ 32) : HandlerFacts (fun s => op_push_n s n) :=
  pushop_handler_facts _
    (fun s => List.replicate (32 - min n (s.code.length - s.pc - 1)) 0 ++
      (s.code.drop (s.pc + 1)).take (min n (s.code.length - s.pc - 1))) (1 + n) 3
    (fun s => rfl)
    (fun s => by
      simp only [List.length_append, List.length_replicate, List.length_take,
        List.length_drop]
      omega)
    (by norm_num)

theorem getD_mem_of_lt {α : Type} (l : List α) (i : Nat) (d : α) (h : i < l.length) :
    l.getD i d ∈ l := by
  induction l generalizing i with
  | nil => simp at h
  | cons a t ih =>
    cases i with
    | zero => simp
    | succ j =>
      simp only [List.getD_cons_succ]
      exact List.mem_cons_of_mem _ (ih j (by simpa using h))

theorem memWrite_length (mem : List Nat) (off : Nat) (bytes : List Nat) :
    (memWrite mem off bytes).length = mem.length := by
  simp only [memWrite, List.length_append, List.length_take, List.length_drop]
  omega

theorem op_stop_facts : HandlerFacts op_stop := by
  intro s
  exact ⟨rfl, Or.inr (Or.inr (by simp [op_stop])),
    fun h => FrameInv_build _ h.stack_len h.words h.mem32 h.vals⟩

theorem op_jumpdest_facts : HandlerFacts op_jumpdest := by
  intro s
  exact ⟨rfl, Or.inr (Or.inl (by norm_num [op_jumpdest])), fun h => h⟩

theorem op_stub_facts : HandlerFacts op_stub := by
  intro s
  exact ⟨rfl, Or.inr (Or.inl (by norm_num [op_stub])), fun h => h⟩

theorem op_invalid_facts : HandlerFacts op_invalid := by
  intro s
  exact ⟨rfl, Or.inl (by norm_num [op_invalid]),
    fun h => FrameInv_build _ h.stack_len h.words h.mem32 h.vals⟩

theorem op_pop_facts : HandlerFacts op_pop := by
  intro s
  rcases hs : s.stack with _ | ⟨a, rest⟩
  · have he : op_pop s = (s, ⟨-1, 0⟩) := by simp [op_pop, hs]
    rw [he]
    exact ⟨rfl, Or.inl (by norm_num), fun h => h⟩
  · have he : op_pop s = ({ s with stack := rest }, ⟨1, 2⟩) := by simp [op_pop, hs]
    rw [he]
    refine ⟨rfl, Or.inr (Or.inl (by norm_num)), fun h => FrameInv_build _ ?_ ?_ h.mem32 h.vals⟩
    · have h1 := h.stack_len
      rw [hs] at h1
      simp only [List.length_cons] at h1 ⊢
      omega
    · intro w hw
      exact h.words w (by rw [hs]; exact List.mem_cons_of_mem _ hw)

theorem op_jump_facts : HandlerFacts op_jump := by
  intro s
  rcases hs : s.stack with _ | ⟨d, rest⟩
  · have he : op_jump s = (s, ⟨-1, 0⟩) := by simp [op_jump, hs]
    rw [he]
    exact ⟨rfl, Or.inl (by norm_num), fun h => h⟩
  · by_cases hv : word_to_u64 d % 4294967296 ≥ s.code.length ∨
      s.code.getD (word_to_u64 d % 4294967296) 0 ≠ 91
    · have he : op_jump s = ({ s with state := 4, halt_reason := 3 }, ⟨-1, 0⟩) := by
        simp only [op_jump, hs]
        rw [if_pos hv]
      rw [he]
      exact ⟨rfl, Or.inl (by norm_num),
        fun h => FrameInv_build _ h.stack_len h.words h.mem32 h.vals⟩
    · have he : op_jump s =
          ({ s with stack := rest, pc := word_to_u64 d % 4294967296 }, ⟨0, 8⟩) := by
        simp only [op_jump, hs]
        rw [if_neg hv]
      rw [he]
      refine ⟨rfl, Or.inr (Or.inl (by norm_num)),
        fun h => FrameInv_build _ ?_ ?_ h.mem32 h.vals⟩
      · have h1 := h.stack_len
        rw [hs] at h1
        simp only [List.length_cons] at h1 ⊢
        omega
      · intro w hw
        exact h.words w (by rw [hs]; exact List.mem_cons_of_mem _ hw)

theorem op_jumpi_facts : HandlerFacts op_jumpi := by
  intro s
  rcases hs : s.stack with _ | ⟨d, _ | ⟨c, rest⟩⟩
  · have he : op_jumpi s = (s, ⟨-1, 0⟩) := by simp [op_jumpi, hs]
    rw [he]
    exact ⟨rfl, Or.inl (by norm_num), fun h => h⟩
  · have he : op_jumpi s = (s, ⟨-1, 0⟩) := by simp [op_jumpi, hs]
    rw [he]
    exact ⟨rfl, Or.inl (by norm_num), fun h => h⟩
  · have hrest : ∀ t : MessageFrameMemory, t.stack = rest → t.memory = s.memory →
        t.storage = s.storage → FrameInv s → FrameInv t := by
      intro t h1 h2 h3 h
      refine FrameInv_build _ ?_ ?_ ?_ ?_
      · rw [h1]
        have hl := h.stack_len
        rw [hs] at hl
        simp only [List.length_cons] at hl
        omega
      · intro w hw
        rw [h1] at hw
        exact h.words w (by rw [hs]; exact List.mem_cons_of_mem _ (List.mem_cons_of_mem _ hw))
      · rw [h2]; exact h.mem32
      · rw [h3]; exact h.vals
    by_cases hj : ¬ is_zero c = true
    · by_cases hv : word_to_u64 d % 4294967296 ≥ s.code.length ∨
        s.code.getD (word_to_u64 d % 4294967296) 0 ≠ 91
      · have he : op_jumpi s =
            ({ s with stack := rest, state := 4, halt_reason := 3 }, ⟨-1, 0⟩) := by
          simp only [op_jumpi, hs]
          rw [if_pos hj, if_pos hv]
        rw [he]
        exact ⟨rfl, Or.inl (by norm_num), fun h => hrest _ rfl rfl rfl h⟩
      · have he : op_jumpi s =
            ({ s with stack := rest, pc := word_to_u64 d % 4294967296 }, ⟨0, 10⟩) := by
          simp only [op_jumpi, hs]
          rw [if_pos hj, if_neg hv]
        rw [he]
        exact ⟨rfl, Or.inr (Or.inl (by norm_num)), fun h => hrest _ rfl rfl rfl h⟩
    · have he : op_jumpi s = ({ s with stack := rest }, ⟨1, 10⟩) := by
        simp only [op_jumpi, hs]
        rw [if_neg hj]
      rw [he]
      exact ⟨rfl, Or.inr (Or.inl (by norm_num)), fun h => hrest _ rfl rfl rfl h⟩

theorem op_dup_n_facts (n : Nat) : HandlerFacts (fun s => op_dup_n s n) := by
  intro s
  by_cases h1 : s.stack.length ≤ n - 1
  · have he : op_dup_n s n = (s, ⟨-1, 0⟩) := by simp [op_dup_n, h1]
    simp only [he]
    exact ⟨trivial, Or.inl (by norm_num), fun h => h⟩
  · by_cases h2 : s.stack.length ≥ 1024
    · have he : op_dup_n s n = (s, ⟨-1, 0⟩) := by
        simp only [op_dup_n]
        rw [if_neg h1, if_pos h2]
      simp only [he]
      exact ⟨trivial, Or.inl (by norm_num), fun h => h⟩
    · have he : op_dup_n s n =
          ({ s with stack := s.stack.getD (n - 1) [] :: s.stack }, ⟨1, 3⟩) := by
        simp only [op_dup_n]
        rw [if_neg h1, if_neg h2]
      simp only [he]
      refine ⟨trivial, Or.inr (Or.inl (by norm_num)),
        fun h => FrameInv_build _ ?_ ?_ h.mem32 h.vals⟩
      · simp only [List.length_cons]
        omega
      · intro w hw
        rcases List.mem_cons.mp hw with hw1 | hw1
        · rw [hw1]
          exact h.words _ (getD_mem_of_lt _ _ _ (by omega))
        · exact h.words w hw1

theorem op_swap_n_facts (n : Nat) : HandlerFacts (fun s => op_swap_n s n) := by
  intro s
  by_cases h1 : s.stack.length ≤ n
  · have he : op_swap_n s n = (s, ⟨-1, 0⟩) := by simp [op_swap_n, h1]
    simp only [he]
    exact ⟨trivial, Or.inl (by norm_num), fun h => h⟩
  · have he : op_swap_n s n =
        ({ s with stack := (s.stack.set 0 (s.stack.getD n [])).set n (s.stack.getD 0 []) },
         ⟨1, 3⟩) := by
      simp only [op_swap_n]
      rw [if_neg h1]
    simp only [he]
    refine ⟨trivial, Or.inr (Or.inl (by norm_num)),
      fun h => FrameInv_build _ ?_ ?_ h.mem32 h.vals⟩
    · simp only [List.length_set]
      exact h.stack_len
    · intro w hw
      rcases List.mem_or_eq_of_mem_set hw with hw1 | hw1
      · rcases List.mem_or_eq_of_mem_set hw1 with hw2 | hw2
        · exact h.words w hw2
        · rw [hw2]
          exact h.words _ (getD_mem_of_lt _ _ _ (by omega))
      · rw [hw1]
        exact h.words _ (getD_mem_of_lt _ _ _ (by omega))

theorem op_mload_facts : HandlerFacts op_mload := by
  intro s
  rcases hs : s.stack with _ | ⟨ow, rest⟩
  · have he : op_mload s = (s, ⟨-1, 0⟩) := by simp [op_mload, hs]
    rw [he]
    exact ⟨rfl, Or.inl (by norm_num), fun h => h⟩
  · cases hem : ensure_memory s (word_to_u64 ow % 4294967296) 32 with
    | none =>
      have he : op_mload s = (s, ⟨-1, 0⟩) := by simp [op_mload, hs, hem]
      rw [he]
      exact ⟨rfl, Or.inl (by norm_num), fun h => h⟩
    | some s1 =>
      obtain ⟨hpc, hgas, hrefund, hstate, hstatic, hhalt, hstack, hcode, hcontract,
        hstorage, hmax, hm32⟩ := ensure_memory_some s _ _ s1 hem
      have he : op_mload s =
          ({ s1 with stack :=
              ((List.range 32).map
                (fun i => s1.memory.getD (word_to_u64 ow % 4294967296 + i) 0)) :: rest },
           ⟨1, 3⟩) := by
        simp [op_mload, hs, hem]
      rw [he]
      refine ⟨hgas, Or.inr (Or.inl (by norm_num)),
        fun h => FrameInv_build _ ?_ ?_ ?_ ?_⟩
      · have h1 := h.stack_len
        rw [hs] at h1
        simp only [List.length_cons] at h1 ⊢
        omega
      · intro w hw
        rcases List.mem_cons.mp hw with hw1 | hw1
        · rw [hw1]
          simp
        · exact h.words w (by rw [hs]; exact List.mem_cons_of_mem _ hw1)
      · exact hm32 h.mem32
      · rw [hstorage]
        exact h.vals

theorem op_mstore_facts : HandlerFacts op_mstore := by
  intro s
  rcases hs : s.stack with _ | ⟨ow, _ | ⟨v, rest⟩⟩
  · have he : op_mstore s = (s, ⟨-1, 0⟩) := by simp [op_mstore, hs]
    rw [he]
    exact ⟨rfl, Or.inl (by norm_num), fun h => h⟩
  · have he : op_mstore s = (s, ⟨-1, 0⟩) := by simp [op_mstore, hs]
    rw [he]
    exact ⟨rfl, Or.inl (by norm_num), fun h => h⟩
  · cases hem : ensure_memory s (word_to_u64 ow % 4294967296) 32 with
    | none =>
      have he : op_mstore s = (s, ⟨-1, 0⟩) := by simp [op_mstore, hs, hem]
      rw [he]
      exact ⟨rfl, Or.inl (by norm_num), fun h => h⟩
    | some s1 =>
      obtain ⟨hpc, hgas, hrefund, hstate, hstatic, hhalt, hstack, hcode, hcontract,
        hstorage, hmax, hm32⟩ := ensure_memory_some s _ _ s1 hem
      have he : op_mstore s =
          ({ s1 with
              memory := memWrite s1.memory (word_to_u64 ow % 4294967296) v
              stack := rest }, ⟨1, 3⟩) := by
        simp [op_mstore, hs, hem]
      rw [he]
      refine ⟨hgas, Or.inr (Or.inl (by norm_num)),
        fun h => FrameInv_build _ ?_ ?_ ?_ ?_⟩
      · have h1 := h.stack_len
        rw [hs] at h1
        simp only [List.length_cons] at h1 ⊢
        omega
      · intro w hw
        exact h.words w
          (by rw [hs]; exact List.mem_cons_of_mem _ (List.mem_cons_of_mem _ hw))
      · rw [memWrite_length]
        exact hm32 h.mem32
      · rw [hstorage]
        exact h.vals

theorem op_mstore8_facts : HandlerFacts op_mstore8 := by
  intro s
  rcases hs : s.stack with _ | ⟨ow, _ | ⟨v, rest⟩⟩
  · have he : op_mstore8 s = (s, ⟨-1, 0⟩) := by simp [op_mstore8, hs]
    rw [he]
    exact ⟨rfl, Or.inl (by norm_num), fun h => h⟩
  · have he : op_mstore8 s = (s, ⟨-1, 0⟩) := by simp [op_mstore8, hs]
    rw [he]
    exact ⟨rfl, Or.inl (by norm_num), fun h => h⟩
  · cases hem : ensure_memory s (word_to_u64 ow % 4294967296) 1 with
    | none =>
      have he : op_mstore8 s = (s, ⟨-1, 0⟩) := by simp [op_mstore8, hs, hem]
      rw [he]
      exact ⟨rfl, Or.inl (by norm_num), fun h => h⟩
    | some s1 =>
      obtain ⟨hpc, hgas, hrefund, hstate, hstatic, hhalt, hstack, hcode, hcontract,
        hstorage, hmax, hm32⟩ := ensure_memory_some s _ _ s1 hem
      have he : op_mstore8 s =
          ({ s1 with
              memory := memWrite s1.memory (word_to_u64 ow % 4294967296) [v.getD 31 0]
              stack := rest }, ⟨1, 3⟩) := by
        simp [op_mstore8, hs, hem]
      rw [he]
      refine ⟨hgas, Or.inr (Or.inl (by norm_num)),
        fun h => FrameInv_build _ ?_ ?_ ?_ ?_⟩
      · have h1 := h.stack_len
        rw [hs] at h1
        simp only [List.length_cons] at h1 ⊢
        omega
      · intro w hw
        exact h.words w
          (by rw [hs]; exact List.mem_cons_of_mem _ (List.mem_cons_of_mem _ hw))
      · rw [memWrite_length]
        exact hm32 h.mem32
      · rw [hstorage]
        exact h.vals

theorem op_sload_facts : HandlerFacts op_sload := by
  intro s
  rcases hs : s.stack with _ | ⟨kw, rest⟩
  · have he : op_sload s = (s, ⟨-1, 0⟩) := by simp [op_sload, hs]
    rw [he]
    exact ⟨rfl, Or.inl (by norm_num), fun h => h⟩
  · cases hf : storage_find s.storage s.contract kw with
    | some e =>
      have he : op_sload s =
          ({ s with
              stack := e.value :: rest
              storage := store_update s.storage s.contract kw
                (fun x => { x with is_warm := 1 }) },
           ⟨1, if e.is_warm ≠ 0 then 100 else 2100⟩) := by
        simp [op_sload, hs, hf]
      rw [he]
      refine ⟨rfl, Or.inr (Or.inl (by split_ifs <;> norm_num)),
        fun h => FrameInv_build _ ?_ ?_ h.mem32 ?_⟩
      · have h1 := h.stack_len
        rw [hs] at h1
        simp only [List.length_cons] at h1 ⊢
        omega
      · intro w hw
        rcases List.mem_cons.mp hw with hw1 | hw1
        · rw [hw1]
          exact h.vals e (storage_find_mem _ _ _ _ hf)
        · exact h.words w (by rw [hs]; exact List.mem_cons_of_mem _ hw1)
      · intro x hx
        rcases store_update_mem _ _ _ _ _ hx with hx1 | ⟨e1, he1, hx1⟩
        · exact h.vals x hx1
        · rw [hx1]
          exact h.vals e1 he1
    | none =>
      have he : op_sload s =
          ({ s with stack := List.replicate 32 0 :: rest }, ⟨1, 2100⟩) := by
        simp [op_sload, hs, hf]
      rw [he]
      refine ⟨rfl, Or.inr (Or.inl (by norm_num)),
        fun h => FrameInv_build _ ?_ ?_ h.mem32 h.vals⟩
      · have h1 := h.stack_len
        rw [hs] at h1
        simp only [List.length_cons] at h1 ⊢
        omega
      · intro w hw
        rcases List.mem_cons.mp hw with hw1 | hw1
        · rw [hw1]; simp
        · exact h.words w (by rw [hs]; exact List.mem_cons_of_mem _ hw1)

theorem op_sstore_facts : HandlerFacts op_sstore := by
  intro s
  by_cases hst : s.is_static ≠ 0
  · have he : op_sstore s = ({ s with state := 4, halt_reason := 6 }, ⟨-1, 0⟩) := by
      simp [op_sstore, hst]
    rw [he]
    exact ⟨rfl, Or.inl (by norm_num),
      fun h => FrameInv_build _ h.stack_len h.words h.mem32 h.vals⟩
  · rcases hs : s.stack with _ | ⟨kw, _ | ⟨vw, rest⟩⟩
    · have he : op_sstore s = (s, ⟨-1, 0⟩) := by simp [op_sstore, hst, hs]
      rw [he]
      exact ⟨rfl, Or.inl (by norm_num), fun h => h⟩
    · have he : op_sstore s = (s, ⟨-1, 0⟩) := by simp [op_sstore, hst, hs]
      rw [he]
      exact ⟨rfl, Or.inl (by norm_num), fun h => h⟩
    · cases hf : storage_find s.storage s.contract kw with
      | some e =>
        have he : op_sstore s =
            ({ s with
                gas_refund :=
                  if is_zero vw ∧ ¬ is_zero e.value then s.gas_refund + 4800
                  else s.gas_refund
                storage := store_update s.storage s.contract kw
                  (fun x => { x with value := vw, is_warm := 1 })
                stack := rest },
             ⟨1, if is_zero vw then (if e.is_warm ≠ 0 then 100 else 2100)
                 else if is_zero e.value ∧ ¬ is_zero e.original then
                   (if e.is_warm ≠ 0 then 100 else 2100)
                 else if is_zero e.value then 20000
                 else (if e.is_warm ≠ 0 then 100 else 2100)⟩) := by
          simp [op_sstore, hst, hs, hf]
        rw [he]
        refine ⟨rfl, Or.inr (Or.inl (by split_ifs <;> norm_num)),
          fun h => FrameInv_build _ ?_ ?_ h.mem32 ?_⟩
        · have h1 := h.stack_len
          rw [hs] at h1
          simp only [List.length_cons] at h1 ⊢
          omega
        · intro w hw
          exact h.words w
            (by rw [hs]; exact List.mem_cons_of_mem _ (List.mem_cons_of_mem _ hw))
        · intro x hx
          rcases store_update_mem _ _ _ _ _ hx with hx1 | ⟨e1, he1, hx1⟩
          · exact h.vals x hx1
          · rw [hx1]
            exact h.words vw (by rw [hs]; exact List.mem_cons_of_mem _ (List.mem_cons_self vw _))
      | none =>
        by_cases hfull : s.storage.length ≥ s.max_storage_slots
        · have he : op_sstore s = ({ s with state := 4, halt_reason := 2 }, ⟨-1, 0⟩) := by
            simp [op_sstore, hst, hs, hf, hfull]
          rw [he]
          exact ⟨rfl, Or.inl (by norm_num),
            fun h => FrameInv_build _ h.stack_len h.words h.mem32 h.vals⟩
        · have he : op_sstore s =
              ({ s with
                  storage := s.storage ++
                    [{ address := s.contract, key := kw, value := vw,
                       original := vw, is_warm := 1 }]
                  stack := rest }, ⟨1, 20000⟩) := by
            simp [op_sstore, hst, hs, hf, hfull]
          rw [he]
          refine ⟨rfl, Or.inr (Or.inl (by norm_num)),
            fun h => FrameInv_build _ ?_ ?_ h.mem32 ?_⟩
          · have h1 := h.stack_len
            rw [hs] at h1
            simp only [List.length_cons] at h1 ⊢
            omega
          · intro w hw
            exact h.words w
              (by rw [hs]; exact List.mem_cons_of_mem _ (List.mem_cons_of_mem _ hw))
          · intro x hx
            rcases List.mem_append.mp hx with hx1 | hx1
            · exact h.vals x hx1
            · have hxe := List.mem_singleton.mp hx1
              rw [hxe]
              exact h.words vw
                (by rw [hs]; exact List.mem_cons_of_mem _ (List.mem_cons_self vw _))

theorem handler_facts_of_eq (H : MessageFrameMemory → MessageFrameMemory × OpResult)
    (op : Nat) (s : MessageFrameMemory) (hH : HandlerFacts H)
    (heq : JUMP_TABLE op s = H s) :
    (JUMP_TABLE op s).1.gas_remaining = s.gas_remaining ∧
    ((JUMP_TABLE op s).2.pc_increment < 0 ∨ 1 ≤ (JUMP_TABLE op s).2.gas_cost ∨
      (JUMP_TABLE op s).1.state ≠ 1) ∧
    (FrameInv s → FrameInv (JUMP_TABLE op s).1) := by
  rw [heq]
  exact hH s

theorem JUMP_TABLE_facts (op : Nat) : HandlerFacts (JUMP_TABLE op) := by
  intro s
  rcases em (96 ≤ op ∧ op ≤ 127) with h1 | h1
  · refine handler_facts_of_eq _ op s (op_push_n_facts (op - 95) (by omega)) ?_
    simp only [JUMP_TABLE]
    rw [if_pos h1]
  rcases em (128 ≤ op ∧ op ≤ 143) with h2 | h2
  · refine handler_facts_of_eq _ op s (op_dup_n_facts (op - 127)) ?_
    simp only [JUMP_TABLE]
    rw [if_neg h1, if_pos h2]
  rcases em (144 ≤ op ∧ op ≤ 159) with h3 | h3
  · refine handler_facts_of_eq _ op s (op_swap_n_facts (op - 143)) ?_
    simp only [JUMP_TABLE]
    rw [if_neg h1, if_neg h2, if_pos h3]
  rcases em (op = 0) with h4 | h4
  · refine handler_facts_of_eq _ op s (op_stop_facts) ?_
    simp only [JUMP_TABLE]
    rw [if_neg h1, if_neg h2, if_neg h3, if_pos h4]
  rcases em (op = 1) with h5 | h5
  · refine handler_facts_of_eq _ op s (op_add_facts) ?_
    simp only [JUMP_TABLE]
    rw [if_neg h1, if_neg h2, if_neg h3, if_neg h4, if_pos h5]
  rcases em (op = 2) with h6 | h6
  · refine handler_facts_of_eq _ op s (op_mul_facts) ?_
    simp only [JUMP_TABLE]
    rw [if_neg h1, if_neg h2, if_neg h3, if_neg h4, if_neg h5, if_pos h6]
  rcases em (op = 3) with h7 | h7
  · refine handler_facts_of_eq _ op s (op_sub_facts) ?_
    simp only [JUMP_TABLE]
    rw [if_neg h1, if_neg h2, if_neg h3, if_neg h4, if_neg h5, if_neg h6, if_pos h7]
  rcases em (op = 4) with h8 | h8
  · refine handler_facts_of_eq _ op s (op_div_facts) ?_
    simp only [JUMP_TABLE]
    rw [if_neg h1, if_neg h2, if_neg h3, if_neg h4, if_neg h5, if_neg h6, if_neg h7, if_pos h8]
  rcases em (op = 6) with h9 | h9
  · refine handler_facts_of_eq _ op s (op_mod_facts) ?_
    simp only [JUMP_TABLE]
    rw [if_neg h1, if_neg h2, if_neg h3, if_neg h4, if_neg h5, if_neg h6, if_neg h7, if_neg h8, if_pos h9]
  rcases em (op = 16) with h10 | h10
  · refine handler_facts_of_eq _ op s (op_lt_facts) ?_
    simp only [JUMP_TABLE]
    rw [if_neg h1, if_neg h2, if_neg h3, if_neg h4, if_neg h5, if_neg h6, if_neg h7, if_neg h8, if_neg h9, if_pos h10]
  rcases em (op = 17) with h11 | h11
  · refine handler_facts_of_eq _ op s (op_gt_facts) ?_
    simp only [JUMP_TABLE]
    rw [if_neg h1, if_neg h2, if_neg h3, if_neg h4, if_neg h5, if_neg h6, if_neg h7, if_neg h8, if_neg h9, if_neg h10, if_pos h11]
  rcases em (op = 20) with h12 | h12
  · refine handler_facts_of_eq _ op s (op_eq_facts) ?_
    simp only [JUMP_TABLE]
    rw [if_neg h1, if_neg h2, if_neg h3, if_neg h4, if_neg h5, if_neg h6, if_neg h7, if_neg h8, if_neg h9, if_neg h10, if_neg h11, if_pos h12]
  rcases em (op = 21) with h13 | h13
  · refine handler_facts_of_eq _ op s (op_iszero_facts) ?_
    simp only [JUMP_TABLE]
    rw [if_neg h1, if_neg h2, if_neg h3, if_neg h4, if_neg h5, if_neg h6, if_neg h7, if_neg h8, if_neg h9, if_neg h10, if_neg h11, if_neg h12, if_pos h13]
  rcases em (op = 22) with h14 | h14
  · refine handler_facts_of_eq _ op s (op_and_facts) ?_
    simp only [JUMP_TABLE]
    rw [if_neg h1, if_neg h2, if_neg h3, if_neg h4, if_neg h5, if_neg h6, if_neg h7, if_neg h8, if_neg h9, if_neg h10, if_neg h11, if_neg h12, if_neg h13, if_pos h14]
  rcases em (op = 23) with h15 | h15
  · refine handler_facts_of_eq _ op s (op_or_facts) ?_
    simp only [JUMP_TABLE]
    rw [if_neg h1, if_neg h2, if_neg h3, if_neg h4, if_neg h5, if_neg h6, if_neg h7, if_neg h8, if_neg h9, if_neg h10, if_neg h11, if_neg h12, if_neg h13, if_neg h14, if_pos h15]
  rcases em (op = 24) with h16 | h16
  · refine handler_facts_of_eq _ op s (op_xor_facts) ?_
    simp only [JUMP_TABLE]
    rw [if_neg h1, if_neg h2, if_neg h3, if_neg h4, if_neg h5, if_neg h6, if_neg h7, if_neg h8, if_neg h9, if_neg h10, if_neg h11, if_neg h12, if_neg h13, if_neg h14, if_neg h15, if_pos h16]
  rcases em (op = 25) with h17 | h17
  · refine handler_facts_of_eq _ op s (op_not_facts) ?_
    simp only [JUMP_TABLE]
    rw [if_neg h1, if_neg h2, if_neg h3, if_neg h4, if_neg h5, if_neg h6, if_neg h7, if_neg h8, if_neg h9, if_neg h10, if_neg h11, if_neg h12, if_neg h13, if_neg h14, if_neg h15, if_neg h16, if_pos h17]
  rcases em (op = 68) with h18 | h18
  · refine handler_facts_of_eq _ op s (op_sload_facts) ?_
    simp only [JUMP_TABLE]
    rw [if_neg h1, if_neg h2, if_neg h3, if_neg h4, if_neg h5, if_neg h6, if_neg h7, if_neg h8, if_neg h9, if_neg h10, if_neg h11, if_neg h12, if_neg h13, if_neg h14, if_neg h15, if_neg h16, if_neg h17, if_pos h18]
  rcases em (op = 69) with h19 | h19
  · refine handler_facts_of_eq _ op s (op_sstore_facts) ?_
    simp only [JUMP_TABLE]
    rw [if_neg h1, if_neg h2, if_neg h3, if_neg h4, if_neg h5, if_neg h6, if_neg h7, if_neg h8, if_neg h9, if_neg h10, if_neg h11, if_neg h12, if_neg h13, if_neg h14, if_neg h15, if_neg h16, if_neg h17, if_neg h18, if_pos h19]
  rcases em (op = 80) with h20 | h20
  · refine handler_facts_of_eq _ op s (op_pop_facts) ?_
    simp only [JUMP_TABLE]
    rw [if_neg h1, if_neg h2, if_neg h3, if_neg h4, if_neg h5, if_neg h6, if_neg h7, if_neg h8, if_neg h9, if_neg h10, if_neg h11, if_neg h12, if_neg h13, if_neg h14, if_neg h15, if_neg h16, if_neg h17, if_neg h18, if_neg h19, if_pos h20]
  rcases em (op = 81) with h21 | h21
  · refine handler_facts_of_eq _ op s (op_mload_facts) ?_
    simp only [JUMP_TABLE]
    rw [if_neg h1, if_neg h2, if_neg h3, if_neg h4, if_neg h5, if_neg h6, if_neg h7, if_neg h8, if_neg h9, if_neg h10, if_neg h11, if_neg h12, if_neg h13, if_neg h14, if_neg h15, if_neg h16, if_neg h17, if_neg h18, if_neg h19, if_neg h20, if_pos h21]
  rcases em (op = 82) with h22 | h22
  · refine handler_facts_of_eq _ op s (op_mstore_facts) ?_
    simp only [JUMP_TABLE]
    rw [if_neg h1, if_neg h2, if_neg h3, if_neg h4, if_neg h5, if_neg h6, if_neg h7, if_neg h8, if_neg h9, if_neg h10, if_neg h11, if_neg h12, if_neg h13, if_neg h14, if_neg h15, if_neg h16, if_neg h17, if_neg h18, if_neg h19, if_neg h20, if_neg h21, if_pos h22]
  rcases em (op = 83) with h23 | h23
  · refine handler_facts_of_eq _ op s (op_mstore8_facts) ?_
    simp only [JUMP_TABLE]
    rw [if_neg h1, if_neg h2, if_neg h3, if_neg h4, if_neg h5, if_neg h6, if_neg h7, if_neg h8, if_neg h9, if_neg h10, if_neg h11, if_neg h12, if_neg h13, if_neg h14, if_neg h15, if_neg h16, if_neg h17, if_neg h18, if_neg h19, if_neg h20, if_neg h21, if_neg h22, if_pos h23]
  rcases em (op = 86) with h24 | h24
  · refine handler_facts_of_eq _ op s (op_jump_facts) ?_
    simp only [JUMP_TABLE]
    rw [if_neg h1, if_neg h2, if_neg h3, if_neg h4, if_neg h5, if_neg h6, if_neg h7, if_neg h8, if_neg h9, if_neg h10, if_neg h11, if_neg h12, if_neg h13, if_neg h14, if_neg h15, if_neg h16, if_neg h17, if_neg h18, if_neg h19, if_neg h20, if_neg h21, if_neg h22, if_neg h23, if_pos h24]
  rcases em (op = 87) with h25 | h25
  · refine handler_facts_of_eq _ op s (op_jumpi_facts) ?_
    simp only [JUMP_TABLE]
    rw [if_neg h1, if_neg h2, if_neg h3, if_neg h4, if_neg h5, if_neg h6, if_neg h7, if_neg h8, if_neg h9, if_neg h10, if_neg h11, if_neg h12, if_neg h13, if_neg h14, if_neg h15, if_neg h16, if_neg h17, if_neg h18, if_neg h19, if_neg h20, if_neg h21, if_neg h22, if_neg h23, if_neg h24, if_pos h25]
  rcases em (op = 88) with h26 | h26
  · refine handler_facts_of_eq _ op s (op_pc_facts) ?_
    simp only [JUMP_TABLE]
    rw [if_neg h1, if_neg h2, if_neg h3, if_neg h4, if_neg h5, if_neg h6, if_neg h7, if_neg h8, if_neg h9, if_neg h10, if_neg h11, if_neg h12, if_neg h13, if_neg h14, if_neg h15, if_neg h16, if_neg h17, if_neg h18, if_neg h19, if_neg h20, if_neg h21, if_neg h22, if_neg h23, if_neg h24, if_neg h25, if_pos h26]
  rcases em (op = 90) with h27 | h27
  · refine handler_facts_of_eq _ op s (op_gas_facts) ?_
    simp only [JUMP_TABLE]
    rw [if_neg h1, if_neg h2, if_neg h3, if_neg h4, if_neg h5, if_neg h6, if_neg h7, if_neg h8, if_neg h9, if_neg h10, if_neg h11, if_neg h12, if_neg h13, if_neg h14, if_neg h15, if_neg h16, if_neg h17, if_neg h18, if_neg h19, if_neg h20, if_neg h21, if_neg h22, if_neg h23, if_neg h24, if_neg h25, if_neg h26, if_pos h27]
  rcases em (op = 91) with h28 | h28
  · refine handler_facts_of_eq _ op s (op_jumpdest_facts) ?_
    simp only [JUMP_TABLE]
    rw [if_neg h1, if_neg h2, if_neg h3, if_neg h4, if_neg h5, if_neg h6, if_neg h7, if_neg h8, if_neg h9, if_neg h10, if_neg h11, if_neg h12, if_neg h13, if_neg h14, if_neg h15, if_neg h16, if_neg h17, if_neg h18, if_neg h19, if_neg h20, if_neg h21, if_neg h22, if_neg h23, if_neg h24, if_neg h25, if_neg h26, if_neg h27, if_pos h28]
  rcases em (op = 95) with h29 | h29
  · refine handler_facts_of_eq _ op s (op_push0_facts) ?_
    simp only [JUMP_TABLE]
    rw [if_neg h1, if_neg h2, if_neg h3, if_neg h4, if_neg h5, if_neg h6, if_neg h7, if_neg h8, if_neg h9, if_neg h10, if_neg h11, if_neg h12, if_neg h13, if_neg h14, if_neg h15, if_neg h16, if_neg h17, if_neg h18, if_neg h19, if_neg h20, if_neg h21, if_neg h22, if_neg h23, if_neg h24, if_neg h25, if_neg h26, if_neg h27, if_neg h28, if_pos h29]
  rcases em (op = 253 ∨ op = 254 ∨ op = 255) with h30 | h30
  · refine handler_facts_of_eq _ op s (op_invalid_facts) ?_
    simp only [JUMP_TABLE]
    rw [if_neg h1, if_neg h2, if_neg h3, if_neg h4, if_neg h5, if_neg h6, if_neg h7, if_neg h8, if_neg h9, if_neg h10, if_neg h11, if_neg h12, if_neg h13, if_neg h14, if_neg h15, if_neg h16, if_neg h17, if_neg h18, if_neg h19, if_neg h20, if_neg h21, if_neg h22, if_neg h23, if_neg h24, if_neg h25, if_neg h26, if_neg h27, if_neg h28, if_neg h29, if_pos h30]
  refine handler_facts_of_eq _ op s op_stub_facts ?_
  simp only [JUMP_TABLE]
  rw [if_neg h1, if_neg h2, if_neg h3, if_neg h4, if_neg h5, if_neg h6, if_neg h7, if_neg h8, if_neg h9, if_neg h10, if_neg h11, if_neg h12, if_neg h13, if_neg h14, if_neg h15, if_neg h16, if_neg h17, if_neg h18, if_neg h19, if_neg h20, if_neg h21, if_neg h22, if_neg h23, if_neg h24, if_neg h25, if_neg h26, if_neg h27, if_neg h28, if_neg h29, if_neg h30]


theorem execLoop_exit (tr : Bool) (fuel : Nat) (s : MessageFrameMemory) (st : RunStats)
    (h : s.state ≠ 1) : execLoop tr (fuel + 1) s st = some (s, st) := by
  simp only [execLoop]
  rw [if_neg (by simp [h]), if_neg h]

theorem execLoop_exit_isSome (tr : Bool) (fuel : Nat) (s : MessageFrameMemory)
    (st : RunStats) (h : s.state ≠ 1) : (execLoop tr (fuel + 1) s st).isSome := by
  rw [execLoop_exit tr fuel s st h]
  rfl

theorem execLoop_adequate (tr : Bool) :
    ∀ (fuel : Nat) (s : MessageFrameMemory) (st : RunStats),
      s.gas_remaining.toNat + 2 ≤ fuel → (execLoop tr fuel s st).isSome := by
  intro fuel
  induction fuel with
  | zero => intro s st h; omega
  | succ fuel ih =>
    intro s st h
    simp only [execLoop]
    by_cases hcond : s.pc < s.code.length ∧ s.state = 1
    · rw [if_pos hcond]
      by_cases hgas : s.gas_remaining < 3
      · rw [if_pos hgas]; simp
      · rw [if_neg hgas]
        by_cases herr : (JUMP_TABLE (s.code.getD s.pc 0) s).2.pc_increment < 0
        · rw [if_pos herr]
          by_cases hst1 : (JUMP_TABLE (s.code.getD s.pc 0) s).1.state = 1
          · rw [if_pos hst1]; simp
          · rw [if_neg hst1]; simp
        · rw [if_neg herr]
          by_cases hoog : (JUMP_TABLE (s.code.getD s.pc 0) s).1.gas_remaining <
              (JUMP_TABLE (s.code.getD s.pc 0) s).2.gas_cost
          · rw [if_pos hoog]; simp
          · rw [if_neg hoog]
            have hgeq : (JUMP_TABLE (s.code.getD s.pc 0) s).1.gas_remaining =
                s.gas_remaining := (JUMP_TABLE_facts _ s).1
            rcases (JUMP_TABLE_facts (s.code.getD s.pc 0) s).2.1 with hp | hp | hp
            · exact absurd hp herr
            · by_cases hpc : (JUMP_TABLE (s.code.getD s.pc 0) s).2.pc_increment > 0
              · rw [if_pos hpc]
                apply ih
                show ((JUMP_TABLE (s.code.getD s.pc 0) s).1.gas_remaining -
                  (JUMP_TABLE (s.code.getD s.pc 0) s).2.gas_cost).toNat + 2 ≤ fuel
                omega
              · rw [if_neg hpc]
                apply ih
                show ((JUMP_TABLE (s.code.getD s.pc 0) s).1.gas_remaining -
                  (JUMP_TABLE (s.code.getD s.pc 0) s).2.gas_cost).toNat + 2 ≤ fuel
                omega
            · obtain ⟨fuel1, rfl⟩ : ∃ f1, fuel = f1 + 1 := ⟨fuel - 1, by omega⟩
              by_cases hpc : (JUMP_TABLE (s.code.getD s.pc 0) s).2.pc_increment > 0
              · rw [if_pos hpc]
                apply execLoop_exit_isSome
                exact hp
              · rw [if_neg hpc]
                apply execLoop_exit_isSome
                exact hp
    · rw [if_neg hcond]; simp

theorem obs_pre_inv (tr : Bool) (st : RunStats) (s : MessageFrameMemory)
    (hobs : ∀ f ∈ st.obs, FrameInv f) (hs : FrameInv s) :
    ∀ f ∈ (if tr = true then
      { st with pre := st.pre + 1, obs := st.obs ++ [s] } else st).obs, FrameInv f := by
  split_ifs
  · intro f hf
    rcases List.mem_append.mp hf with hf1 | hf1
    · exact hobs f hf1
    · rw [List.mem_singleton.mp hf1]
      exact hs
  · exact hobs

theorem execLoop_preserves_inv (tr : Bool) :
    ∀ (fuel : Nat) (s : MessageFrameMemory) (st : RunStats)
      (s2 : MessageFrameMemory) (st2 : RunStats),
      FrameInv s → (∀ f ∈ st.obs, FrameInv f) →
      execLoop tr fuel s st = some (s2, st2) →
      FrameInv s2 ∧ ∀ f ∈ st2.obs, FrameInv f := by
  intro fuel
  induction fuel with
  | zero => intro s st s2 st2 _ _ h; simp [execLoop] at h
  | succ fuel ih =>
    intro s st s2 st2 hs hobs h
    simp only [execLoop] at h
    by_cases hcond : s.pc < s.code.length ∧ s.state = 1
    · rw [if_pos hcond] at h
      by_cases hgas : s.gas_remaining < 3
      · rw [if_pos hgas] at h
        simp only [Option.some.injEq, Prod.mk.injEq] at h
        obtain ⟨hs2, hst2⟩ := h
        subst hs2; subst hst2
        exact ⟨FrameInv_build _ hs.stack_len hs.words hs.mem32 hs.vals, hobs⟩
      · rw [if_neg hgas] at h
        have hres := (JUMP_TABLE_facts (s.code.getD s.pc 0) s).2.2 hs
        have hobs1 := obs_pre_inv tr st s hobs hs
        by_cases herr : (JUMP_TABLE (s.code.getD s.pc 0) s).2.pc_increment < 0
        · rw [if_pos herr] at h
          by_cases hst1 : (JUMP_TABLE (s.code.getD s.pc 0) s).1.state = 1
          · rw [if_pos hst1] at h
            simp only [Option.some.injEq, Prod.mk.injEq] at h
            obtain ⟨hs2, hst2⟩ := h
            subst hs2; subst hst2
            exact ⟨FrameInv_build _ hres.stack_len hres.words hres.mem32 hres.vals, hobs1⟩
          · rw [if_neg hst1] at h
            simp only [Option.some.injEq, Prod.mk.injEq] at h
            obtain ⟨hs2, hst2⟩ := h
            subst hs2; subst hst2
            exact ⟨hres, hobs1⟩
        · rw [if_neg herr] at h
          by_cases hoog : (JUMP_TABLE (s.code.getD s.pc 0) s).1.gas_remaining <
              (JUMP_TABLE (s.code.getD s.pc 0) s).2.gas_cost
          · rw [if_pos hoog] at h
            simp only [Option.some.injEq, Prod.mk.injEq] at h
            obtain ⟨hs2, hst2⟩ := h
            subst hs2; subst hst2
            exact ⟨FrameInv_build _ hres.stack_len hres.words hres.mem32 hres.vals, hobs1⟩
          · rw [if_neg hoog] at h
            have hs2' : FrameInv { (JUMP_TABLE (s.code.getD s.pc 0) s).1 with
                gas_remaining := (JUMP_TABLE (s.code.getD s.pc 0) s).1.gas_remaining -
                  (JUMP_TABLE (s.code.getD s.pc 0) s).2.gas_cost } :=
              FrameInv_build _ hres.stack_len hres.words hres.mem32 hres.vals
            by_cases hpc : (JUMP_TABLE (s.code.getD s.pc 0) s).2.pc_increment > 0
            · rw [if_pos hpc] at h
              refine ih _ _ _ _ ?_ ?_ h
              · exact FrameInv_build _ hres.stack_len hres.words hres.mem32 hres.vals
              · intro f hf
                revert hf
                split_ifs with htr
                · intro hf
                  simp only [htr] at hf
                  rcases List.mem_append.mp hf with hf1 | hf1
                  · exact hobs1 f (by rw [if_pos htr]; exact hf1)
                  · rw [List.mem_singleton.mp hf1]
                    exact hs2'
                · intro hf
                  simp only [htr] at hf
                  exact hobs1 f (by rw [if_neg (by simp [htr])]; simpa [htr] using hf)
            · rw [if_neg hpc] at h
              refine ih _ _ _ _ ?_ ?_ h
              · exact FrameInv_build _ hres.stack_len hres.words hres.mem32 hres.vals
              · intro f hf
                revert hf
                split_ifs with htr
                · intro hf
                  simp only [htr] at hf
                  rcases List.mem_append.mp hf with hf1 | hf1
                  · exact hobs1 f (by rw [if_pos htr]; exact hf1)
                  · rw [List.mem_singleton.mp hf1]
                    exact hs2'
                · intro hf
                  simp only [htr] at hf
                  exact hobs1 f (by rw [if_neg (by simp [htr])]; simpa [htr] using hf)
    · rw [if_neg hcond] at h
      simp only [Option.some.injEq, Prod.mk.injEq] at h
      obtain ⟨hs2, hst2⟩ := h
      subst hs2; subst hst2
      constructor
      · split_ifs
        · exact FrameInv_build _ hs.stack_len hs.words hs.mem32 hs.vals
        · exact hs
      · exact hobs

theorem execLoop_counts :
    ∀ (fuel : Nat) (s : MessageFrameMemory) (st : RunStats)
      (s2 : MessageFrameMemory) (st2 : RunStats),
      execLoop true fuel s st = some (s2, st2) →
      (st.pre = st.dispatched → st2.pre = st2.dispatched) ∧
      (st.post = st.charged → st2.post = st2.charged) := by
  intro fuel
  induction fuel with
  | zero => intro s st s2 st2 h; simp [execLoop] at h
  | succ fuel ih =>
    intro s st s2 st2 h
    simp only [execLoop] at h
    by_cases hcond : s.pc < s.code.length ∧ s.state = 1
    · rw [if_pos hcond] at h
      by_cases hgas : s.gas_remaining < 3
      · rw [if_pos hgas] at h
        simp only [Option.some.injEq, Prod.mk.injEq] at h
        obtain ⟨hs2, hst2⟩ := h
        subst hs2; subst hst2
        exact ⟨fun hp => hp, fun hp => hp⟩
      · rw [if_neg hgas] at h
        by_cases herr : (JUMP_TABLE (s.code.getD s.pc 0) s).2.pc_increment < 0
        · rw [if_pos herr] at h
          by_cases hst1 : (JUMP_TABLE (s.code.getD s.pc 0) s).1.state = 1
          · rw [if_pos hst1] at h
            simp only [Option.some.injEq, Prod.mk.injEq] at h
            obtain ⟨hs2, hst2⟩ := h
            subst hs2; subst hst2
            refine ⟨fun hp => ?_, fun hp => ?_⟩ <;> simp <;> omega
          · rw [if_neg hst1] at h
            simp only [Option.some.injEq, Prod.mk.injEq] at h
            obtain ⟨hs2, hst2⟩ := h
            subst hs2; subst hst2
            refine ⟨fun hp => ?_, fun hp => ?_⟩ <;> simp <;> omega
        · rw [if_neg herr] at h
          by_cases hoog : (JUMP_TABLE (s.code.getD s.pc 0) s).1.gas_remaining <
              (JUMP_TABLE (s.code.getD s.pc 0) s).2.gas_cost
          · rw [if_pos hoog] at h
            simp only [Option.some.injEq, Prod.mk.injEq] at h
            obtain ⟨hs2, hst2⟩ := h
            subst hs2; subst hst2
            refine ⟨fun hp => ?_, fun hp => ?_⟩ <;> simp <;> omega
          · rw [if_neg hoog] at h
            by_cases hpc : (JUMP_TABLE (s.code.getD s.pc 0) s).2.pc_increment > 0
            · rw [if_pos hpc] at h
              have hih := ih _ _ _ _ h
              refine ⟨fun hp => hih.1 (by simp; omega), fun hp => hih.2 (by simp; omega)⟩
            · rw [if_neg hpc] at h
              have hih := ih _ _ _ _ h
              refine ⟨fun hp => hih.1 (by simp; omega), fun hp => hih.2 (by simp; omega)⟩
    · rw [if_neg hcond] at h
      simp only [Option.some.injEq, Prod.mk.injEq] at h
      obtain ⟨hs2, hst2⟩ := h
      subst hs2; subst hst2
      exact ⟨fun hp => hp, fun hp => hp⟩

theorem execLoop_err_default (tr : Bool) (fuel : Nat) (s : MessageFrameMemory)
    (st : RunStats) (hstate : s.state = 1) (hpc : s.pc < s.code.length)
    (hgas : ¬ s.gas_remaining < 3)
    (herr : JUMP_TABLE (s.code.getD s.pc 0) s = (s, ⟨-1, 0⟩)) :
    execLoop tr (fuel + 1) s st =
      some ({ s with state := 4, halt_reason := 4 }, statsAfterDispatch tr st s) := by
  simp only [execLoop]
  rw [if_pos (And.intro hpc hstate)]
  rw [if_neg hgas]
  rw [herr]
  rw [if_pos (show ((s, ⟨-1, 0⟩) : MessageFrameMemory × OpResult).2.pc_increment < 0 by norm_num)]
  rw [if_pos (show ((s, ⟨-1, 0⟩) : MessageFrameMemory × OpResult).1.state = 1 from hstate)]
  rfl

theorem ensure_memory_fails (s : MessageFrameMemory) (off sz : Nat) (hsz : sz ≠ 0)
    (hg : memGrowthExceedsLimit s off sz) : ensure_memory s off sz = none := by
  simp only [ensure_memory]
  rw [if_neg hsz, if_pos hg.1, if_pos hg.2]

/-- C6 (amended).  Whenever MLOAD, MSTORE or MSTORE8 fails the memory
growth check - the region is uncovered and the 32-byte round-up of
`offset + size`, as truncated to `uint32_t` by the source, exceeds the
1 MiB ceiling (`memGrowthExceedsLimit`) - the dispatch loop halts the
frame with state = EXCEPTIONAL_HALT (4) and halt_reason = 4, the loop's
generic handler-error code - not OUT_OF_BOUNDS (7), which the
implementation never writes.  Moreover `ensure_memory` fails exactly on
that truncated condition: in the `uint32_t` wrap window
(`offset + size > 2^32 - 32`, rounded size wrapping to 0 or 32) it
succeeds and execution proceeds without halting. -/
theorem C6_memory_limit_amended :
    (∀ (tr : Bool) (fuel : Nat) (s : MessageFrameMemory) (st : RunStats),
      s.state = 1 → s.pc < s.code.length → ¬ s.gas_remaining < 3 →
      ((s.code.getD s.pc 0 = 81 ∧ ∃ ow rest, s.stack = ow :: rest ∧
        memGrowthExceedsLimit s (word_to_u64 ow % 4294967296) 32) ∨
      (s.code.getD s.pc 0 = 82 ∧ ∃ ow vw rest, s.stack = ow :: vw :: rest ∧
        memGrowthExceedsLimit s (word_to_u64 ow % 4294967296) 32) ∨
      (s.code.getD s.pc 0 = 83 ∧ ∃ ow vw rest, s.stack = ow :: vw :: rest ∧
        memGrowthExceedsLimit s (word_to_u64 ow % 4294967296) 1)) →
      execLoop tr (fuel + 1) s st =
        some ({ s with state := 4, halt_reason := 4 }, statsAfterDispatch tr st s)) ∧
    (∀ (s : MessageFrameMemory) (off sz : Nat),
      ensure_memory s off sz = none ↔ sz ≠ 0 ∧ memGrowthExceedsLimit s off sz) := by
  constructor
  · intro tr fuel s st hstate hpc hgas hcase
    apply execLoop_err_default tr fuel s st hstate hpc hgas
    rcases hcase with ⟨hop, ow, rest, hstack, hg⟩ | ⟨hop, ow, vw, rest, hstack, hg⟩ |
      ⟨hop, ow, vw, rest, hstack, hg⟩
    · rw [hop, show JUMP_TABLE 81 s = op_mload s from rfl]
      simp [op_mload, hstack, ensure_memory_fails s _ 32 (by norm_num) hg]
    · rw [hop, show JUMP_TABLE 82 s = op_mstore s from rfl]
      simp [op_mstore, hstack, ensure_memory_fails s _ 32 (by norm_num) hg]
    · rw [hop, show JUMP_TABLE 83 s = op_mstore8 s from rfl]
      simp [op_mstore8, hstack, ensure_memory_fails s _ 1 (by norm_num) hg]
  · intro s off sz
    constructor
    · intro h
      simp only [ensure_memory] at h
      split_ifs at h with h1 h2 h3 h4
      exact ⟨h1, h2, h3⟩
    · rintro ⟨hsz, hg⟩
      exact ensure_memory_fails s off sz hsz hg

/-- C7 (amended).  Whenever an operation attempts to push onto a stack
already holding 1024 entries (PC, GAS, PUSH0, PUSH1..PUSH32,
DUP1..DUP16), the dispatch loop halts the frame with state =
EXCEPTIONAL_HALT (4) and halt_reason = 4 - the code the repository's
`ExceptionalHaltReason` enum names STACK_OVERFLOW - not 5 as the spec's
numbering has it. -/
theorem C7_stack_overflow_amended (tr : Bool) (fuel : Nat) (s : MessageFrameMemory) (st : RunStats)
    (hstate : s.state = 1) (hpc : s.pc < s.code.length) (hgas : ¬ s.gas_remaining < 3)
    (hfull : stack_size s = 1024) (hop : attemptsPush (s.code.getD s.pc 0)) :
    execLoop tr (fuel + 1) s st =
      some ({ s with state := 4, halt_reason := 4 }, statsAfterDispatch tr st s) := by
  apply execLoop_err_default tr fuel s st hstate hpc hgas
  have hlen : s.stack.length = 1024 := hfull
  rcases hop with hop | hop | hop | ⟨h1, h2⟩ | ⟨h1, h2⟩
  · rw [hop, show JUMP_TABLE 88 s = op_pc s from rfl]
    simp [op_pc, hlen]
  · rw [hop, show JUMP_TABLE 90 s = op_gas s from rfl]
    simp [op_gas, hlen]
  · rw [hop, show JUMP_TABLE 95 s = op_push0 s from rfl]
    simp [op_push0, hlen]
  · have heq : JUMP_TABLE (s.code.getD s.pc 0) s =
        op_push_n s (s.code.getD s.pc 0 - 95) := by
      simp only [JUMP_TABLE]
      rw [if_pos (And.intro h1 h2)]
    rw [heq]
    simp [op_push_n, hlen]
  · have heq : JUMP_TABLE (s.code.getD s.pc 0) s =
        op_dup_n s (s.code.getD s.pc 0 - 127) := by
      simp only [JUMP_TABLE]
      rw [if_neg (by omega), if_pos (And.intro h1 h2)]
    rw [heq]
    simp only [op_dup_n]
    rw [if_neg (by omega), if_pos (by omega)]

/-- Witness for C6 at a concrete input: an executing frame whose code is
the single MSTORE byte with offset 2^20 on the stack halts with
state 4 / halt_reason 4 in one loop step. -/
theorem C6_memory_limit_amended_witness :
    execLoop false 1
      { baseFrame [82] 100 with
          state := 1
          stack := [u64_to_word 1048576, u64_to_word 42] } initStats =
      some ({ { baseFrame [82] 100 with
          state := 1
          stack := [u64_to_word 1048576, u64_to_word 42] } with
            state := 4, halt_reason := 4 },
        statsAfterDispatch false initStats
          { baseFrame [82] 100 with
              state := 1
              stack := [u64_to_word 1048576, u64_to_word 42] }) := by
  apply C6_memory_limit_amended.1 false 0 _ initStats rfl (by decide) (by decide)
  exact Or.inr (Or.inl ⟨rfl, u64_to_word 1048576, u64_to_word 42, [], rfl,
    by unfold memGrowthExceedsLimit; decide⟩)

/-- Witness for C7 at a concrete input: an executing frame with a full
1024-entry stack and code PUSH0 halts with state 4 / halt_reason 4 in
one loop step. -/
theorem C7_stack_overflow_amended_witness :
    execLoop false 1
      { baseFrame [95] 100 with
          state := 1
          stack := List.replicate 1024 (List.replicate 32 0) } initStats =
      some ({ { baseFrame [95] 100 with
          state := 1
          stack := List.replicate 1024 (List.replicate 32 0) } with
            state := 4, halt_reason := 4 },
        statsAfterDispatch false initStats
          { baseFrame [95] 100 with
              state := 1
              stack := List.replicate 1024 (List.replicate 32 0) }) := by
  apply C7_stack_overflow_amended false 0 _ initStats rfl (by decide) (by decide)
    (by simp [stack_size, baseFrame])
  exact Or.inr (Or.inr (Or.inl rfl))

/-- C1.  For every control block satisfying the layout preconditions
(`FrameInv`: stack_size at most 1024, memory_size a multiple of 32, and
full 32-byte slots on the stack and storage planes), every operation
handler preserves the invariant, and at every observation point during
(each frame passed to a tracer upcall) and after `execute_message`,
stack_size is between 0 and 1024 and memory_size is a multiple of 32. -/
theorem C1_layout_invariants :
    (∀ (op : Nat) (s : MessageFrameMemory), FrameInv s → FrameInv (JUMP_TABLE op s).1) ∧
    (∀ (tr : Bool) (fuel : Nat) (s s2 : MessageFrameMemory) (st st2 : RunStats),
      FrameInv s → (∀ f ∈ st.obs, FrameInv f) →
      execLoop tr fuel s st = some (s2, st2) →
      (stack_size s2 ≤ 1024 ∧ memory_size s2 % 32 = 0) ∧
      ∀ f ∈ st2.obs, stack_size f ≤ 1024 ∧ memory_size f % 32 = 0) ∧
    (∀ (s : MessageFrameMemory) (tr : Bool), FrameInv s →
      stack_size (execute_message s tr).1 ≤ 1024 ∧
      memory_size (execute_message s tr).1 % 32 = 0 ∧
      ∀ f ∈ (execute_message s tr).2.obs,
        stack_size f ≤ 1024 ∧ memory_size f % 32 = 0) := by
  refine ⟨fun op s h => (JUMP_TABLE_facts op s).2.2 h, ?_, ?_⟩
  · intro tr fuel s s2 st st2 hs hobs h
    have hrun := execLoop_preserves_inv tr fuel s st s2 st2 hs hobs h
    exact ⟨⟨hrun.1.1, hrun.1.2.1⟩, fun f hf => ⟨(hrun.2 f hf).1, (hrun.2 f hf).2.1⟩⟩
  · intro s tr hs
    have hs1 : FrameInv { s with state := 1 } :=
      FrameInv_build _ hs.stack_len hs.words hs.mem32 hs.vals
    have hsome := execLoop_adequate tr (s.gas_remaining.toNat + 2)
      { s with state := 1 } initStats (Nat.le_refl _)
    obtain ⟨⟨s2, st2⟩, heq⟩ := Option.isSome_iff_exists.mp hsome
    have hrun := execLoop_preserves_inv tr _ _ _ s2 st2 hs1
      (by intro f hf; simp [initStats] at hf) heq
    have hexec : execute_message s tr = (s2, st2) := by
      simp only [execute_message, heq]
      rfl
    rw [hexec]
    exact ⟨hrun.1.1, hrun.1.2.1, fun f hf => ⟨(hrun.2 f hf).1, (hrun.2 f hf).2.1⟩⟩

/-- Witness for C1 at a concrete input: a single-STOP frame with 5 gas
satisfies the layout preconditions, and the run's final frame and
observation list satisfy the invariant bounds. -/
theorem C1_layout_invariants_witness :
    stack_size (execute_message (baseFrame [0] 5) false).1 ≤ 1024 ∧
    memory_size (execute_message (baseFrame [0] 5) false).1 % 32 = 0 ∧
    ∀ f ∈ (execute_message (baseFrame [0] 5) false).2.obs,
      stack_size f ≤ 1024 ∧ memory_size f % 32 = 0 :=
  C1_layout_invariants.2.2 (baseFrame [0] 5) false (by unfold FrameInv; decide)

/-- C9.  `execute_message` terminates on every initial control block:
fuel `gas_remaining.toNat + 2` always suffices for the dispatch loop
(because every dispatched handler either signals an error, charges at
least 1 gas, or halts the state machine, and the loop requires
gas_remaining at least 3 to proceed); in particular the cyclic program
JUMPDEST; PUSH1 0; JUMP with 100 gas halts with EXCEPTIONAL_HALT /
INSUFFICIENT_GAS. -/
theorem C9_termination :
    (∀ (s : MessageFrameMemory) (tr : Bool) (st : RunStats),
      (execLoop tr (s.gas_remaining.toNat + 2) { s with state := 1 } st).isSome = true) ∧
    (∀ (op : Nat) (s : MessageFrameMemory),
      (JUMP_TABLE op s).2.pc_increment < 0 ∨ 1 ≤ (JUMP_TABLE op s).2.gas_cost ∨
        (JUMP_TABLE op s).1.state ≠ 1) ∧
    (execute_message cyclicJumpFrame false).1.state = 4 ∧
    (execute_message cyclicJumpFrame false).1.halt_reason = 1 := by
  refine ⟨fun s tr st => execLoop_adequate tr _ _ st (Nat.le_refl _),
    fun op s => (JUMP_TABLE_facts op s).2.1, rfl, rfl⟩

/-- C8 (amended).  In a traced run the number of `trace_pre_execution`
invocations equals the number of dispatched opcodes, and the number of
`trace_post_execution` invocations equals the number of dispatched
opcodes whose handler did not signal an error AND whose gas charge
succeeded (the claim's equality of pre and post counts fails when a
handler errors or when the per-opcode charge exhausts gas). -/
theorem C8_trace_counts_amended (fuel : Nat) (s s2 : MessageFrameMemory) (st2 : RunStats)
    (h : execLoop true fuel s initStats = some (s2, st2)) :
    st2.pre = st2.dispatched ∧ st2.post = st2.charged := by
  have hc := execLoop_counts fuel s initStats s2 st2 h
  exact ⟨hc.1 rfl, hc.2 rfl⟩

/-- Witness for C8 at a concrete input: the single-STOP program traced
with 5 gas has pre = dispatched and post = charged. -/
theorem C8_trace_counts_amended_witness :
    (execute_message (baseFrame [0] 5) true).2.pre
      = (execute_message (baseFrame [0] 5) true).2.dispatched ∧
    (execute_message (baseFrame [0] 5) true).2.post
      = (execute_message (baseFrame [0] 5) true).2.charged :=
  C8_trace_counts_amended 7 { baseFrame [0] 5 with state := 1 }
    (execute_message (baseFrame [0] 5) true).1
    (execute_message (baseFrame [0] 5) true).2 rfl
